import Mathlib

/-!
Shallow embedding of the go-assert assertion library (lvan100/go-assert).

Each assertion check of the Go source is translated to a Lean function that
returns the list of messages handed to the reporter (`t.Error`) during one
call: `[]` means the check passed, a singleton means it failed with that
message.  Checks that can dereference a nil interface in Go are embedded as
`Except String (List String)`, where `.error` is the runtime fault and
`.ok calls` is normal termination with the given reporter calls.

External collaborators of the library are modelled explicitly:
  * the reporter is the returned message list itself;
  * `regexp.MatchString` (Go standard library) is passed in as an oracle of
    type `Option Bool` (`none` = pattern failed to compile, `some b` = the
    compiled pattern matched / did not match);
  * `encoding/json.Unmarshal` into `interface` values is modelled by the
    executable parser `parseJson` below, producing canonical trees in which
    objects are key-sorted association lists (Go decodes objects into
    unordered maps and `reflect.DeepEqual` ignores key order, so canonical
    sorting models exactly that);
  * `reflect` type assignability is passed in as an oracle where the check
    only forwards to it.

The optional variadic `msg ...string` suffix of every Go check is cosmetic
(joined onto the message, never read) and is fixed to the empty suffix here.
-/

/-! ## The %q and %v formatting used by failure messages -/

/-- Model of the escaping done by Go's %q verb on one character
(quote and backslash escaped; other printable characters verbatim). -/
def goEscChar (c : Char) : List Char :=
  if c = '"' then ['\\', '"']
  else if c = '\\' then ['\\', '\\']
  else [c]

/-- Model of Go's %q verb for the printable strings that appear in
failure messages: the string surrounded by quotes, with quote and
backslash escaped. -/
def goQuote (s : String) : String :=
  ⟨'"' :: (s.data.flatMap goEscChar ++ ['"'])⟩

/-- Go's %v rendering of a slice: elements separated by single spaces,
surrounded by square brackets. -/
def goShowList {α : Type} [ToString α] (v : List α) : String :=
  "[" ++ String.intercalate " " (v.map toString) ++ "]"

/-! ## The regular-expression helper `matches` (part_004 / part_005 revision)

`func matches(t internal.T, got string, expr string, msg ...string)`:
`regexp.MatchString(expr, got)` is the oracle `re`; a compile error fails
with the dedicated message "invalid pattern", a non-match fails with the
formatted got/expr message. -/

/-- Embedding of the `matches` helper of string.go's earlier revision
(src/unnamed/part_004 lines 80-88, identical in part_005), also used by
`Panic`, `Error` and `ErrorAssertion.Matches`. -/
def matchesGo (re : Option Bool) (got expr : String) : List String :=
  match re with
  | none => ["invalid pattern"]
  | some true => []
  | some false => ["got " ++ goQuote got ++ " which does not match " ++ goQuote expr]

/-- Embedding of `StringAssertion.Matches` of the current src/string.go
(lines 96-103): `err != nil || !ok` share one failure branch, so the
invalid-pattern case and the non-match case produce the same message. -/
def stringMatchesGo (re : Option Bool) (v expr : String) : List String :=
  match re with
  | some true => []
  | _ => ["string does not match the pattern, got (string) " ++ v ++
          " but expect to match regex " ++ goQuote expr]

/-! ## Panic capture (src/unnamed/part_001 lines 87-107) -/

/-- Behaviour of the function under test handed to `Panic`: it either
returns normally or panics, in which case `rendered` is `fmt.Sprint` of the
recovered payload. -/
inductive FnBehavior where
  | normal : FnBehavior
  | panicsWith (rendered : String) : FnBehavior
deriving DecidableEq

/-- Embedding of `recovery`: the sentinel "<<SUCCESS>>" on normal return,
otherwise the rendered panic payload. -/
def recoveryGo (fn : FnBehavior) : String :=
  match fn with
  | .normal => "<<SUCCESS>>"
  | .panicsWith s => s

/-- Embedding of `Panic`: fail with "did not panic" when `recovery`
returned the sentinel, otherwise match the recovered text against the
pattern via the `matches` helper (regexp result passed as oracle `re`). -/
def assertPanicGo (re : Option Bool) (fn : FnBehavior) (expr : String) : List String :=
  let str := recoveryGo fn
  if str = "<<SUCCESS>>" then ["did not panic"]
  else matchesGo re str expr

/-! ## Nil-ness checks (src/unnamed/part_001 lines 51-85)

A Go `interface{}` argument as seen by `reflect.ValueOf`: either the untyped
nil (an invalid `reflect.Value`), a value of a nilable kind carrying its own
nil flag, or a concrete non-nilable value. -/

/-- A boxed Go value as inspected by `isNil`. -/
inductive GoValue where
  | untypedNil : GoValue
  | chanV (isnil : Bool) : GoValue
  | funcV (isnil : Bool) : GoValue
  | interV (isnil : Bool) : GoValue
  | mapV (isnil : Bool) : GoValue
  | ptrV (isnil : Bool) : GoValue
  | sliceV (isnil : Bool) : GoValue
  | uptrV (isnil : Bool) : GoValue
  | intV (n : Int) : GoValue
  | strV (s : String) : GoValue
deriving DecidableEq

/-- Embedding of `isNil(v reflect.Value)`: the kinds chan, func, interface,
map, ptr, slice and unsafe-pointer report their own nilness; every other
value reports whether the `reflect.Value` is invalid (true exactly for the
untyped nil). -/
def reflectIsNil (v : GoValue) : Bool :=
  match v with
  | .untypedNil => true
  | .chanV b => b
  | .funcV b => b
  | .interV b => b
  | .mapV b => b
  | .ptrV b => b
  | .sliceV b => b
  | .uptrV b => b
  | .intV _ => false
  | .strV _ => false

/-- Rendering of %T for the modelled values (the element types of pointers,
slices and so on are not tracked; a fixed tag stands for them). -/
def goTypeTag (v : GoValue) : String :=
  match v with
  | .untypedNil => "<nil>"
  | .chanV _ => "chan T"
  | .funcV _ => "func()"
  | .interV _ => "interface"
  | .mapV _ => "map[T]U"
  | .ptrV _ => "*T"
  | .sliceV _ => "[]T"
  | .uptrV _ => "unsafe.Pointer"
  | .intV _ => "int"
  | .strV _ => "string"

/-- Rendering of %v for the modelled values. -/
def goValShow (v : GoValue) : String :=
  match v with
  | .intV n => toString n
  | .strV s => s
  | _ => if reflectIsNil v then "<nil>" else "<value>"

/-- Embedding of `Nil`: fails with "got (%T) %v but expect nil" when
`isNil(reflect.ValueOf(got))` is false. -/
def assertNilGo (v : GoValue) : List String :=
  if reflectIsNil v then []
  else ["got (" ++ goTypeTag v ++ ") " ++ goValShow v ++ " but expect nil"]

/-- Embedding of `NotNil`: fails with a fixed message when the value is nil. -/
def assertNotNilGo (v : GoValue) : List String :=
  if reflectIsNil v then ["got nil but expect not nil"] else []

/-! ## Error assertions (src/unnamed/part_002 lines 750-827) -/

/-- A Go error value: a leaf error or a wrapping error; each node carries
the text its `Error()` method returns.  `none` at use sites is the nil
error interface. -/
inductive GoError where
  | base (emsg : String) : GoError
  | wrap (emsg : String) (inner : GoError) : GoError
deriving DecidableEq

/-- The `Error()` text of an error value. -/
def errText (e : GoError) : String :=
  match e with
  | .base m => m
  | .wrap m _ => m

/-- `errors.Unwrap`: a wrapping error exposes its inner error, a leaf does
not. -/
def unwrapE (e : GoError) : Option GoError :=
  match e with
  | .base _ => none
  | .wrap _ inner => some inner

/-- Whether `t` occurs in the unwrap chain of `e` (the loop inside Go's
`errors.Is(e, t)` for non-nil operands; the modelled errors define no
custom `Is` method). -/
def chainHas (e t : GoError) : Bool :=
  match e with
  | .base m => GoError.base m == t
  | .wrap m inner => (GoError.wrap m inner == t) || chainHas inner t

/-- Embedding of Go's `errors.Is(err, target)` on possibly-nil operands:
with a nil target it is `err == target`; with a nil err it is false; else
the chain of `err` is searched for `target`. -/
def goErrorsIs (err target : Option GoError) : Bool :=
  match target with
  | none => err == none
  | some t =>
    match err with
    | none => false
    | some e => chainHas e t

/-- Embedding of `ErrorAssertion.Is` (src/unnamed/part_002 lines 781-787).
The source calls `errors.Is(target, a.v)` - the target in the err position.
The failure message evaluates `target.Error()` and `a.v.Error()`; on a nil
operand that is a nil-interface dereference, a runtime fault (`.error`). -/
def errorIsGo (held target : Option GoError) : Except String (List String) :=
  if goErrorsIs target held then .ok []
  else
    match target, held with
    | some t, some h =>
      .ok ["expect error: " ++ errText t ++ ", got: " ++ errText h]
    | _, _ => .error "runtime error: invalid memory address or nil pointer dereference"

/-- Embedding of `ErrorAssertion.IsNot` (src/unnamed/part_002 lines
789-795): fails when `errors.Is(target, a.v)` holds; its message only
evaluates `target.Error()`. -/
def errorIsNotGo (held target : Option GoError) : Except String (List String) :=
  if goErrorsIs target held then
    match target with
    | some t => .ok ["expect error not to be: " ++ errText t]
    | none => .error "runtime error: invalid memory address or nil pointer dereference"
  else .ok []

/-- Reporter calls carried by a normal outcome; a fault carries none. -/
def exceptCalls (r : Except String (List String)) : List String :=
  match r with
  | .ok calls => calls
  | .error _ => []

/-! ## ThatAssertion.TypeOf (src/unnamed/part_001 lines 166-179) -/

/-- A reflect type as far as `TypeOf` inspects it. -/
inductive GoType where
  | tyInt : GoType
  | tyString : GoType
  | tyPtr (elem : GoType) : GoType
  | tyIface (name : String) : GoType
deriving DecidableEq

/-- Rendering of a reflect type in failure messages. -/
def tyShow (t : GoType) : String :=
  match t with
  | .tyInt => "int"
  | .tyString => "string"
  | .tyPtr e => "*" ++ tyShow e
  | .tyIface n => n

/-- The `e2.Kind() == Ptr && e2.Elem().Kind() == Interface` unwrapping
step of `TypeOf`: a pointer-to-interface type stands for the interface. -/
def unwrapIfacePtr (t : GoType) : GoType :=
  match t with
  | .tyPtr (.tyIface n) => .tyIface n
  | t => t

/-- Embedding of `ThatAssertion.TypeOf`.  `reflect.TypeOf` of an
interface value is `none` exactly when the value is the untyped nil.  The
source reads `e2.Kind()` and then `e1.AssignableTo(e2)`; either call on a
nil `reflect.Type` is a nil-interface dereference (`.error`).
Assignability of concrete types is `reflect` library behaviour and is
passed in as the oracle `assignable`. -/
def thatTypeOfGo (assignable : GoType → GoType → Bool)
    (v expect : Option GoType) : Except String (List String) :=
  match expect with
  | none => .error "runtime error: invalid memory address or nil pointer dereference"
  | some e2raw =>
    let e2 := unwrapIfacePtr e2raw
    match v with
    | none => .error "runtime error: invalid memory address or nil pointer dereference"
    | some e1 =>
      if assignable e1 e2 then .ok []
      else .ok ["got type (" ++ tyShow e1 ++ ") but expect type (" ++ tyShow e2 ++ ")"]

/-! ## NumberAssertion.InDelta (src/unnamed/part_003 lines 169-180)

`diff := a.v - expect; if diff < 0 { diff = -diff }; if diff > delta {fail}`.
For an unsigned carrier of width `w` the subtraction wraps modulo `2^w` and
the `diff < 0` branch is dead; for a signed or floating carrier without
overflow the subtraction is exact.  Both instantiations are embedded. -/

/-- Wrapping subtraction of `w`-bit unsigned integers (operands assumed
reduced, i.e. `< 2^w`). -/
def goUintSub (w a b : Nat) : Nat :=
  (a + 2 ^ w - b) % 2 ^ w

/-- Embedding of `InDelta` instantiated at a `w`-bit unsigned carrier
(`uint8` … `uint64`): `diff` wraps, is never negative, and is compared
against `delta`. -/
def uintInDeltaGo (w : Nat) (ty : String) (actual expect delta : Nat) : List String :=
  let diff := goUintSub w actual expect
  if delta < diff then
    ["got (" ++ ty ++ ") " ++ toString actual ++ " is not within delta (" ++ ty ++
     ") " ++ toString delta ++ " of (" ++ ty ++ ") " ++ toString expect]
  else []

/-- Embedding of `InDelta` at a signed carrier in the overflow-free range
(exact integer arithmetic): `diff := a - e`, negated when negative. -/
def intInDeltaGo (ty : String) (actual expect delta : Int) : List String :=
  let diff0 := actual - expect
  let diff := if diff0 < 0 then -diff0 else diff0
  if delta < diff then
    ["got (" ++ ty ++ ") " ++ toString actual ++ " is not within delta (" ++ ty ++
     ") " ++ toString delta ++ " of (" ++ ty ++ ") " ++ toString expect]
  else []

/-- The specification's pass condition for `InDelta`: the true absolute
difference is at most delta. -/
def specInDeltaOk (actual expect delta : Int) : Prop :=
  (actual - expect).natAbs ≤ delta.natAbs

/-! ## Slice assertions (src/slice.go)

Each check loops `for i := 1; i < len(v); i++` and fails at the first
violating adjacent pair; the scan below mirrors that loop, `prev` being
`v[i-1]`. -/

/-- The adjacent-pair scan of the slice ordering checks: returns the single
failure message of the first adjacent pair on which `bad` holds, or `[]`. -/
def adjScan {α : Type} (bad : α → α → Bool) (mk : α → Nat → α → Nat → String) :
    Nat → α → List α → List String
  | _, _, [] => []
  | i, prev, x :: xs =>
    if bad prev x then [mk x i prev (i - 1)] else adjScan bad mk (i + 1) x xs

/-- Embedding of `SliceAssertion.IsIncreasing` (strict; fails on
`v[i-1] >= v[i]`). -/
def sliceIsIncreasingGo {α : Type} [LinearOrder α] [ToString α] (v : List α) : List String :=
  match v with
  | [] => []
  | x :: xs =>
    adjScan (fun p c => decide (c ≤ p))
      (fun cur i prev j =>
        "got element " ++ toString cur ++ " at index " ++ toString i ++
        " is not greater than " ++ toString prev ++ " at index " ++ toString j)
      1 x xs

/-- Embedding of `SliceAssertion.IsNonIncreasing` (fails on
`v[i-1] < v[i]`). -/
def sliceIsNonIncreasingGo {α : Type} [LinearOrder α] [ToString α] (v : List α) : List String :=
  match v with
  | [] => []
  | x :: xs =>
    adjScan (fun p c => decide (p < c))
      (fun cur i prev j =>
        "got element " ++ toString cur ++ " at index " ++ toString i ++
        " is greater than " ++ toString prev ++ " at index " ++ toString j)
      1 x xs

/-- Embedding of `SliceAssertion.IsDecreasing` (strict; fails on
`v[i-1] <= v[i]`). -/
def sliceIsDecreasingGo {α : Type} [LinearOrder α] [ToString α] (v : List α) : List String :=
  match v with
  | [] => []
  | x :: xs =>
    adjScan (fun p c => decide (p ≤ c))
      (fun cur i prev j =>
        "got element " ++ toString cur ++ " at index " ++ toString i ++
        " is not less than " ++ toString prev ++ " at index " ++ toString j)
      1 x xs

/-- Embedding of `SliceAssertion.IsNonDecreasing` (fails on
`v[i-1] > v[i]`). -/
def sliceIsNonDecreasingGo {α : Type} [LinearOrder α] [ToString α] (v : List α) : List String :=
  match v with
  | [] => []
  | x :: xs =>
    adjScan (fun p c => decide (c < p))
      (fun cur i prev j =>
        "got element " ++ toString cur ++ " at index " ++ toString i ++
        " is less than " ++ toString prev ++ " at index " ++ toString j)
      1 x xs

/-- Embedding of `SliceAssertion.IsSorted` (fails on `v[i-1] > v[i]`). -/
def sliceIsSortedGo {α : Type} [LinearOrder α] [ToString α] (v : List α) : List String :=
  match v with
  | [] => []
  | x :: xs =>
    adjScan (fun p c => decide (c < p))
      (fun cur i prev j =>
        "got element " ++ toString cur ++ " at index " ++ toString i ++
        " is greater than " ++ toString prev ++ " at index " ++ toString j)
      1 x xs

/-- Embedding of `SliceAssertion.IsSortedDescending` (fails on
`v[i-1] < v[i]`). -/
def sliceIsSortedDescGo {α : Type} [LinearOrder α] [ToString α] (v : List α) : List String :=
  match v with
  | [] => []
  | x :: xs =>
    adjScan (fun p c => decide (p < c))
      (fun cur i prev j =>
        "got element " ++ toString cur ++ " at index " ++ toString i ++
        " is less than " ++ toString prev ++ " at index " ++ toString j)
      1 x xs

/-- Embedding of `SliceAssertion.Contains`: linear scan with `==`, one
failure message when the element never occurs. -/
def sliceContainsGo {α : Type} [DecidableEq α] [ToString α] (v : List α) (element : α) :
    List String :=
  if v.any (fun x => decide (x = element)) then []
  else ["got " ++ goShowList v ++ " does not contain " ++ toString element]

/-- Embedding of `SliceAssertion.NotContains`. -/
def sliceNotContainsGo {α : Type} [DecidableEq α] [ToString α] (v : List α) (element : α) :
    List String :=
  if v.any (fun x => decide (x = element)) then
    ["got " ++ goShowList v ++ " contains " ++ toString element]
  else []

/-- The element-comparison loop of `HasPrefix` after its length guard:
`i` tracks the loop index; the first mismatching position produces the
failure message.  The candidate is known to be at most as long as the
slice, so the slice running out is unreachable. -/
def hasPrefLoop {α : Type} [DecidableEq α] [ToString α] :
    Nat → List α → List α → List String
  | _, _, [] => []
  | _, [], _ :: _ => []
  | i, x :: xs, p :: ps =>
    if x = p then hasPrefLoop (i + 1) xs ps
    else ["got element " ++ toString x ++ " at index " ++ toString i ++
          " does not match prefix element " ++ toString p]

/-- Embedding of `SliceAssertion.HasPrefix` (src/slice.go lines 169-184):
a candidate longer than the slice fails with the length-mismatch message
before any element is read; otherwise the elements are compared in order. -/
def sliceHasPrefixGo {α : Type} [DecidableEq α] [ToString α] (v pre : List α) : List String :=
  if v.length < pre.length then
    ["got length " ++ toString v.length ++ " is less than prefix length " ++
     toString pre.length]
  else hasPrefLoop 0 v pre

/-! ## JSON trees and the model of `encoding/json.Unmarshal`

`JsonEqual` unmarshals both strings into `interface` values.  Go decodes a
JSON object into an unordered `map[string]interface` (a later duplicate key
overwrites an earlier one) and a number into `float64`;
`reflect.DeepEqual` on the decoded values therefore ignores object key
order.  The model decodes objects into key-sorted association lists, so
plain structural equality of trees coincides with `DeepEqual` of the
decoded Go values; numbers are modelled as exact rationals. -/

mutual
/-- A decoded JSON value.  A number is kept in the canonical decimal form
`mant * 10 ^ exp` with `mant` not divisible by ten (and `0 * 10 ^ 0` for
zero), so that numeric literals denoting the same value decode to the same
tree, as they do through Go's decoding into `float64`. -/
inductive Jval where
  | jnull : Jval
  | jbool : Bool → Jval
  | jnum : Int → Int → Jval
  | jstr : String → Jval
  | jarr : Jlist → Jval
  | jobj : Jfields → Jval

/-- The elements of a decoded JSON array, in order. -/
inductive Jlist where
  | jnil : Jlist
  | jcons : Jval → Jlist → Jlist

/-- The fields of a decoded JSON object, kept sorted by key. -/
inductive Jfields where
  | fnil : Jfields
  | fcons : String → Jval → Jfields → Jfields
end
deriving instance DecidableEq for Jval
deriving instance DecidableEq for Jlist
deriving instance DecidableEq for Jfields

/-- Insertion of a decoded field into the key-sorted field list; an equal
key overwrites (Go: a later duplicate key wins in the decoded map). -/
def insField (k : String) (v : Jval) : Jfields → Jfields
  | .fnil => .fcons k v .fnil
  | .fcons k2 v2 t =>
    match compare k k2 with
    | .lt => .fcons k v (.fcons k2 v2 t)
    | .eq => .fcons k v t
    | .gt => .fcons k2 v2 (insField k v t)

/-- JSON whitespace skipping (space, tab, newline, carriage return). -/
def skipWs : List Char → List Char
  | [] => []
  | c :: cs =>
    if c = ' ' ∨ c = '\t' ∨ c = '\n' ∨ c = '\r' then skipWs cs else c :: cs

/-- The character denoted by a backslash escape inside a JSON string
(\u escapes are outside the model). -/
def escChar (c : Char) : Option Char :=
  if c = '"' then some '"'
  else if c = '\\' then some '\\'
  else if c = '/' then some '/'
  else if c = 'n' then some '\n'
  else if c = 't' then some '\t'
  else if c = 'r' then some '\r'
  else if c = 'b' then some (Char.ofNat 8)
  else if c = 'f' then some (Char.ofNat 12)
  else none

/-- The body of a JSON string after its opening quote: the decoded
characters and the input after the closing quote. -/
def strChars : List Char → Except String (List Char × List Char)
  | [] => .error "unexpected end of JSON input"
  | '"' :: cs => .ok ([], cs)
  | '\\' :: [] => .error "unexpected end of JSON input"
  | '\\' :: e :: cs =>
    match escChar e with
    | none => .error "invalid escape in string literal"
    | some c =>
      match strChars cs with
      | .error m => .error m
      | .ok (l, r) => .ok (c :: l, r)
  | c :: cs =>
    match strChars cs with
    | .error m => .error m
    | .ok (l, r) => .ok (c :: l, r)

/-- The longest leading run of decimal digits. -/
def takeDigits : List Char → List Char × List Char
  | [] => ([], [])
  | c :: cs =>
    if c.isDigit then
      let (d, r) := takeDigits cs
      (c :: d, r)
    else ([], c :: cs)

/-- The natural number denoted by a digit run. -/
def natOfDigits (ds : List Char) : Nat :=
  ds.foldl (fun acc c => acc * 10 + (c.toNat - 48)) 0

/-- Strips factors of ten off the mantissa, shifting them into the
exponent; the fuel bounds the number of strips. -/
def stripTens : Nat → Nat → Int → Nat × Int
  | 0, m, e => (m, e)
  | f + 1, m, e =>
    if m % 10 = 0 ∧ m ≠ 0 then stripTens f (m / 10) (e + 1) else (m, e)

/-- The canonical-form number node for the value `m * 10 ^ e`. -/
def mkJnum (m e : Int) : Jval :=
  if m = 0 then .jnum 0 0
  else
    let (m2, e2) := stripTens m.natAbs m.natAbs e
    .jnum (if m < 0 then -(Int.ofNat m2) else Int.ofNat m2) e2

/-- A JSON number starting at the digit run (sign already consumed):
integer part, optional fraction, optional exponent; the result is the
signed integer mantissa over all read digits and the decimal exponent. -/
def parseNum (neg : Bool) (cs : List Char) : Except String ((Int × Int) × List Char) :=
  let (ip, r1) := takeDigits cs
  if ip.isEmpty then .error "invalid character in numeric literal"
  else
    let (fd, r2) :=
      match r1 with
      | '.' :: r => takeDigits r
      | _ => ([], r1)
    if r1.head? = some '.' ∧ fd.isEmpty then .error "invalid character in numeric literal"
    else
      let mant : Int := Int.ofNat (natOfDigits (ip ++ fd))
      let mant := if neg then -mant else mant
      match r2 with
      | 'e' :: r3 => parseExpPart mant fd.length r3
      | 'E' :: r3 => parseExpPart mant fd.length r3
      | _ => .ok ((mant, -(Int.ofNat fd.length)), r2)
where
  /-- The exponent part after `e`/`E`, combined with the count of
  fraction digits. -/
  parseExpPart (mant : Int) (fracLen : Nat) (cs : List Char) :
      Except String ((Int × Int) × List Char) :=
    let (eneg, cs2) :=
      match cs with
      | '-' :: r => (true, r)
      | '+' :: r => (false, r)
      | _ => (false, cs)
    let (ed, r) := takeDigits cs2
    if ed.isEmpty then .error "invalid character in numeric literal"
    else
      let e : Int := Int.ofNat (natOfDigits ed)
      let e := if eneg then -e else e
      .ok ((mant, e - Int.ofNat fracLen), r)

mutual
/-- A JSON value at the head of the input (leading whitespace skipped
here); `fuel` bounds the recursion depth and exceeds any depth reachable
on an input of that many characters. -/
def parseV : Nat → List Char → Except String (Jval × List Char)
  | 0, _ => .error "JSON input too deeply nested"
  | fuel + 1, cs =>
    match skipWs cs with
    | [] => .error "unexpected end of JSON input"
    | '{' :: r =>
      match skipWs r with
      | '}' :: r2 => .ok (.jobj .fnil, r2)
      | r2 =>
        match parseFields fuel r2 .fnil with
        | .error m => .error m
        | .ok (fs, rest) => .ok (.jobj fs, rest)
    | '[' :: r =>
      match skipWs r with
      | ']' :: r2 => .ok (.jarr .jnil, r2)
      | r2 =>
        match parseItems fuel r2 with
        | .error m => .error m
        | .ok (xs, rest) => .ok (.jarr xs, rest)
    | '"' :: r =>
      match strChars r with
      | .error m => .error m
      | .ok (l, rest) => .ok (.jstr ⟨l⟩, rest)
    | 't' :: 'r' :: 'u' :: 'e' :: r => .ok (.jbool true, r)
    | 'f' :: 'a' :: 'l' :: 's' :: 'e' :: r => .ok (.jbool false, r)
    | 'n' :: 'u' :: 'l' :: 'l' :: r => .ok (.jnull, r)
    | 't' :: _ => .error "invalid character in literal true"
    | 'f' :: _ => .error "invalid character in literal false"
    | 'n' :: _ => .error "invalid character in literal null"
    | '-' :: r =>
      match parseNum true r with
      | .error m => .error m
      | .ok ((m, e), rest) => .ok (mkJnum m e, rest)
    | c :: r =>
      if c.isDigit then
        match parseNum false (c :: r) with
        | .error m => .error m
        | .ok ((m, e), rest) => .ok (mkJnum m e, rest)
      else .error "invalid character looking for beginning of value"

/-- The field list of a JSON object after at least one field is known to
follow; fields are accumulated with `insField`. -/
def parseFields : Nat → List Char → Jfields → Except String (Jfields × List Char)
  | 0, _, _ => .error "JSON input too deeply nested"
  | fuel + 1, cs, acc =>
    match skipWs cs with
    | '"' :: r =>
      match strChars r with
      | .error m => .error m
      | .ok (kl, r2) =>
        match skipWs r2 with
        | ':' :: r3 =>
          match parseV fuel r3 with
          | .error m => .error m
          | .ok (v, r4) =>
            let acc2 := insField ⟨kl⟩ v acc
            match skipWs r4 with
            | ',' :: r5 => parseFields fuel r5 acc2
            | '}' :: r5 => .ok (acc2, r5)
            | _ => .error "invalid character after object field"
        | _ => .error "invalid character after object key"
    | _ => .error "invalid character looking for object key"

/-- The element list of a JSON array after at least one element is known
to follow. -/
def parseItems : Nat → List Char → Except String (Jlist × List Char)
  | 0, _ => .error "JSON input too deeply nested"
  | fuel + 1, cs =>
    match parseV fuel cs with
    | .error m => .error m
    | .ok (v, r) =>
      match skipWs r with
      | ',' :: r2 =>
        match parseItems fuel r2 with
        | .error m => .error m
        | .ok (xs, rest) => .ok (.jcons v xs, rest)
      | ']' :: r2 => .ok (.jcons v .jnil, r2)
      | _ => .error "invalid character after array element"
end

/-- Model of `json.Unmarshal` of a whole string into an `interface` value:
one JSON value, with only whitespace allowed after it. -/
def parseJson (s : String) : Except String Jval :=
  match parseV (s.length + 1) s.data with
  | .error m => .error m
  | .ok (v, rest) =>
    match skipWs rest with
    | [] => .ok v
    | _ => .error "invalid character after top-level value"

/-- Embedding of `StringAssertion.JsonEqual` of the part_005 revision
(lines 73-89, identical in part_004): a side that fails to parse fails the
check with exactly the parse error text (`err.Error()`); otherwise the
decoded trees are compared and a mismatch fails with the got/expect
message. -/
def jsonEqualGo (a b : String) : List String :=
  match parseJson a with
  | .error e => [e]
  | .ok ta =>
    match parseJson b with
    | .error e => [e]
    | .ok tb =>
      if ta = tb then []
      else ["got (string) " ++ a ++ " but expect (string) " ++ b]

/-- Embedding of `StringAssertion.JsonEqual` of the current src/string.go
(lines 76-94): a parse failure on either side fails with a fixed
"invalid JSON in got/expect value" message that does not carry the parse
error text; a tree mismatch fails with a third message. -/
def stringJsonEqualGo (a b : String) : List String :=
  match parseJson a with
  | .error _ =>
    ["invalid JSON in got value, got (string) " ++ a ++ " but expect (string) " ++ b]
  | .ok ta =>
    match parseJson b with
    | .error _ =>
      ["invalid JSON in expect value, got (string) " ++ a ++ " but expect (string) " ++ b]
    | .ok tb =>
      if ta = tb then []
      else ["JSON structures are not equal, got (string) " ++ a ++ " but expect (string) " ++ b]

/-- Whether `pat` occurs as a contiguous run inside `s` (used to state
that a message does or does not cite a parse error). -/
def infixCheck (pat s : List Char) : Bool :=
  match s with
  | [] => pat.isEmpty
  | _ :: tl => pat.isPrefixOf s || infixCheck pat tl

deriving instance DecidableEq for Except

/-! ## Boolean checks (src/unnamed/part_001 lines 36-48) -/

/-- Embedding of `True`: fails when got is false. -/
def assertTrueGo (got : Bool) : List String :=
  if got then [] else ["got false but expect true"]

/-- Embedding of `False`: fails when got is true. -/
def assertFalseGo (got : Bool) : List String :=
  if got then ["got true but expect false"] else []

/-! ## The free `Error` check (src/unnamed/part_002 lines 109-116) -/

/-- Embedding of the free function `Error`: a nil error fails with a fixed
message, otherwise the error text is matched via the `matches` helper. -/
def errorFreeGo (re : Option Bool) (got : Option GoError) (expr : String) : List String :=
  match got with
  | none => ["expect not nil error"]
  | some e => matchesGo re (errText e) expr

/-! ## The remaining generic `That` checks (src/unnamed/part_001 / part_002)

`reflect.DeepEqual` and Go `==` on two boxed interface values are standard
library behaviour; `deepEqGo` models `DeepEqual` as structural equality of
the modelled values, and the `==`-based checks take the comparison outcome
as an oracle where the language-level identity is not representable. -/

/-- Model of `reflect.DeepEqual` on the modelled boxed values. -/
def deepEqGo (a b : GoValue) : Bool := a == b

/-- Embedding of `ThatAssertion.Equal` (deep equality; the outcome of
`reflect.DeepEqual` on the two boxed values is `deepEqual`). -/
def thatEqualGo (deepEqual : Bool) (v e : GoValue) : List String :=
  if deepEqual then []
  else ["got (" ++ goTypeTag v ++ ") " ++ goValShow v ++ " but expect (" ++
        goTypeTag e ++ ") " ++ goValShow e]

/-- Embedding of `ThatAssertion.NotEqual`. -/
def thatNotEqualGo (deepEqual : Bool) (v e : GoValue) : List String :=
  if deepEqual then
    ["got (" ++ goTypeTag v ++ ") " ++ goValShow v ++ " but expect not (" ++
     goTypeTag e ++ ") " ++ goValShow e]
  else []

/-- Embedding of `ThatAssertion.Same` (Go `==`; its outcome is `same`). -/
def thatSameGo (same : Bool) (v e : GoValue) : List String :=
  if same then []
  else ["got (" ++ goTypeTag v ++ ") " ++ goValShow v ++ " but expect (" ++
        goTypeTag e ++ ") " ++ goValShow e]

/-- Embedding of `ThatAssertion.NotSame`. -/
def thatNotSameGo (same : Bool) (e : GoValue) : List String :=
  if same then ["expect not (" ++ goTypeTag e ++ ") " ++ goValShow e] else []

/-- The interface-check-and-assignability core of `Implements` after the
pointer unwrapping: `e1.Implements(e2)` faults on a nil `e1` and on a
non-interface `e2` (reflect panics there), otherwise consults the oracle. -/
def thatImplementsCore (impl : GoType → GoType → Bool) (v : Option GoType)
    (e2 : GoType) : Except String (List String) :=
  match v with
  | none => .error "runtime error: invalid memory address or nil pointer dereference"
  | some e1 =>
    match e2 with
    | .tyIface n =>
      if impl e1 (.tyIface n) then .ok []
      else .ok ["got type (" ++ tyShow e1 ++ ") but expect type (" ++ tyShow (GoType.tyIface n) ++ ")"]
    | _ => .error "reflect: non-interface type passed to Type.Implements"

/-- Embedding of `ThatAssertion.Implements` (src/unnamed/part_001 lines
184-202): a nil expect faults at `e2.Kind()`; a pointer to a
non-interface fails with "expect should be interface"; a pointer to an
interface is unwrapped; then `e1.Implements(e2)` runs. -/
def thatImplementsGo (impl : GoType → GoType → Bool)
    (v expect : Option GoType) : Except String (List String) :=
  match expect with
  | none => .error "runtime error: invalid memory address or nil pointer dereference"
  | some e2raw =>
    match e2raw with
    | .tyPtr (.tyIface n) => thatImplementsCore impl v (.tyIface n)
    | .tyPtr _ => .ok ["expect should be interface"]
    | e2 => thatImplementsCore impl v e2

/-- The outcome of the reflective method lookup done by `Has`/`Contains`:
the method is absent, has the wrong signature, or was called and returned
the boolean. -/
inductive MethodLookup where
  | absent : MethodLookup
  | wrongSig : MethodLookup
  | returns (b : Bool) : MethodLookup
deriving DecidableEq

/-- Embedding of `ThatAssertion.Has` (src/unnamed/part_001 lines 206-226,
the revision with the signature check). -/
def thatHasGo (m : MethodLookup) (v e : GoValue) : List String :=
  match m with
  | .absent => ["method 'Has' not found on type " ++ goTypeTag v]
  | .wrongSig => ["method 'Has' must return only a bool"]
  | .returns true => []
  | .returns false =>
    ["got (" ++ goTypeTag v ++ ") " ++ goValShow v ++ " not has (" ++
     goTypeTag e ++ ") " ++ goValShow e]

/-- Embedding of `ThatAssertion.Contains` (src/unnamed/part_001 lines
230-250). -/
def thatContainsGo (m : MethodLookup) (v e : GoValue) : List String :=
  match m with
  | .absent => ["method 'Contains' not found on type " ++ goTypeTag v]
  | .wrongSig => ["method 'Contains' must return only a bool"]
  | .returns true => []
  | .returns false =>
    ["got (" ++ goTypeTag v ++ ") " ++ goValShow v ++ " not contains (" ++
     goTypeTag e ++ ") " ++ goValShow e]

/-- The `expect interface` argument of the membership checks, as
classified by `reflect.Kind`: a sequence (array or slice, with the
element type's tag), a mapping, or anything else. -/
inductive GoArg where
  | seq (elemTag : String) (xs : List GoValue) : GoArg
  | mapping (kvs : List (GoValue × GoValue)) : GoArg
  | other (v : GoValue) : GoArg
deriving DecidableEq

/-- %v rendering of a list of boxed values. -/
def showGoVals (xs : List GoValue) : String :=
  "[" ++ String.intercalate " " (xs.map goValShow) ++ "]"

/-- %T rendering of a membership argument. -/
def goArgTypeTag (a : GoArg) : String :=
  match a with
  | .seq elemTag _ => "[]" ++ elemTag
  | .mapping _ => "map[T]U"
  | .other v => goTypeTag v

/-- %v rendering of a membership argument. -/
def goArgShow (a : GoArg) : String :=
  match a with
  | .seq _ xs => showGoVals xs
  | .mapping kvs =>
    "map[" ++ String.intercalate " " (kvs.map fun kv => goValShow kv.1 ++ ":" ++ goValShow kv.2) ++ "]"
  | .other v => goValShow v

/-- Embedding of `ThatAssertion.InSlice`: a non-sequence expect is
unsupported; otherwise a `DeepEqual` scan over the elements. -/
def thatInSliceGo (v : GoValue) (expect : GoArg) : List String :=
  match expect with
  | .seq elemTag xs =>
    if xs.any (fun x => deepEqGo v x) then []
    else ["got (" ++ goTypeTag v ++ ") " ++ goValShow v ++ " is not in (" ++
          goArgTypeTag (.seq elemTag xs) ++ ") " ++ showGoVals xs]
  | a => ["unsupported expect value (" ++ goArgTypeTag a ++ ") " ++ goArgShow a]

/-- Embedding of `ThatAssertion.NotInSlice`: unsupported non-sequences,
then the element-type match requirement, then the membership scan. -/
def thatNotInSliceGo (v : GoValue) (expect : GoArg) : List String :=
  match expect with
  | .seq elemTag xs =>
    if goTypeTag v ≠ elemTag then
      ["got type (" ++ goTypeTag v ++ ") doesn't match expect type ([]" ++ elemTag ++ ")"]
    else if xs.any (fun x => deepEqGo v x) then
      ["got (" ++ goTypeTag v ++ ") " ++ goValShow v ++ " is in (" ++
       goArgTypeTag (.seq elemTag xs) ++ ") " ++ showGoVals xs]
    else []
  | a => ["unsupported expect value (" ++ goArgTypeTag a ++ ") " ++ goArgShow a]

/-- Embedding of `ThatAssertion.SubInSlice` (src/unnamed/part_002 lines
272-299): both operands must be sequences; passes when some element of
the got sequence deep-equals some element of the expect sequence. -/
def thatSubInSliceGo (got expect : GoArg) : List String :=
  match got with
  | .seq gTag xs =>
    match expect with
    | .seq eTag ys =>
      if xs.any (fun x => ys.any (fun y => deepEqGo x y)) then []
      else ["got (" ++ goArgTypeTag (.seq gTag xs) ++ ") " ++ showGoVals xs ++
            " is not sub in (" ++ goArgTypeTag (.seq eTag ys) ++ ") " ++ showGoVals ys]
    | a => ["unsupported expect value (" ++ goArgTypeTag a ++ ") " ++ goArgShow a]
  | a => ["unsupported got value (" ++ goArgTypeTag a ++ ") " ++ goArgShow a]

/-- Embedding of `ThatAssertion.InMapKeys`. -/
def thatInMapKeysGo (v : GoValue) (expect : GoArg) : List String :=
  match expect with
  | .mapping kvs =>
    if kvs.any (fun kv => deepEqGo v kv.1) then []
    else ["got (" ++ goTypeTag v ++ ") " ++ goValShow v ++ " is not in keys of (" ++
          goArgTypeTag (.mapping kvs) ++ ") " ++ goArgShow (.mapping kvs)]
  | a => ["unsupported expect value (" ++ goArgTypeTag a ++ ") " ++ goArgShow a]

/-- Embedding of `ThatAssertion.InMapValues`. -/
def thatInMapValuesGo (v : GoValue) (expect : GoArg) : List String :=
  match expect with
  | .mapping kvs =>
    if kvs.any (fun kv => deepEqGo v kv.2) then []
    else ["got (" ++ goTypeTag v ++ ") " ++ goValShow v ++ " is not in values of (" ++
          goArgTypeTag (.mapping kvs) ++ ") " ++ goArgShow (.mapping kvs)]
  | a => ["unsupported expect value (" ++ goArgTypeTag a ++ ") " ++ goArgShow a]
/-! ## The remaining numeric checks (src/unnamed/part_003)

Embedded at the exact signed carrier (`Int`, overflow-free range), as
`intInDeltaGo` is; the branch structure is identical for every `Number`
carrier.  The NaN/infinity predicates `isNaN`/`isInf` of part_003 return
false for every integer carrier (their `default` branch), modelled by
`isNaNIntGo`/`isInfIntGo`; for floating carriers their outcome is passed
to the checks as a boolean. -/

/-- `isNaN` of part_003 at any integer carrier (the `default` branch). -/
def isNaNIntGo (_ : Int) : Bool := false

/-- `isInf` of part_003 at any integer carrier (the `default` branch). -/
def isInfIntGo (_ : Int) (_ : Int) : Bool := false

/-- Embedding of `NumberAssertion.Equal`. -/
def numEqualGo (ty : String) (v expect : Int) : List String :=
  if v ≠ expect then
    ["got (" ++ ty ++ ") " ++ toString v ++ " but expect (" ++ ty ++ ") " ++ toString expect]
  else []

/-- Embedding of `NumberAssertion.NotEqual`. -/
def numNotEqualGo (ty : String) (v expect : Int) : List String :=
  if v = expect then
    ["got (" ++ ty ++ ") " ++ toString v ++ " but expect not (" ++ ty ++ ") " ++ toString expect]
  else []

/-- Embedding of `NumberAssertion.GreaterThan`. -/
def numGreaterThanGo (ty : String) (v expect : Int) : List String :=
  if v ≤ expect then
    ["got (" ++ ty ++ ") " ++ toString v ++ " but expect greater than (" ++ ty ++ ") " ++
     toString expect]
  else []

/-- Embedding of `NumberAssertion.GreaterOrEqual`. -/
def numGreaterOrEqualGo (ty : String) (v expect : Int) : List String :=
  if v < expect then
    ["got (" ++ ty ++ ") " ++ toString v ++ " but expect greater than or equal to (" ++
     ty ++ ") " ++ toString expect]
  else []

/-- Embedding of `NumberAssertion.LessThan`. -/
def numLessThanGo (ty : String) (v expect : Int) : List String :=
  if expect ≤ v then
    ["got (" ++ ty ++ ") " ++ toString v ++ " but expect less than (" ++ ty ++ ") " ++
     toString expect]
  else []

/-- Embedding of `NumberAssertion.LessOrEqual`. -/
def numLessOrEqualGo (ty : String) (v expect : Int) : List String :=
  if expect < v then
    ["got (" ++ ty ++ ") " ++ toString v ++ " but expect less than or equal to (" ++
     ty ++ ") " ++ toString expect]
  else []

/-- Embedding of `NumberAssertion.IsZero`. -/
def numIsZeroGo (ty : String) (v : Int) : List String :=
  if v ≠ 0 then ["got (" ++ ty ++ ") " ++ toString v ++ " but expect zero"] else []

/-- Embedding of `NumberAssertion.NotZero`. -/
def numNotZeroGo (ty : String) (v : Int) : List String :=
  if v = 0 then ["got (" ++ ty ++ ") " ++ toString v ++ " but expect not zero"] else []

/-- Embedding of `NumberAssertion.IsPositive`. -/
def numIsPositiveGo (ty : String) (v : Int) : List String :=
  if v ≤ 0 then ["got (" ++ ty ++ ") " ++ toString v ++ " but expect positive"] else []

/-- Embedding of `NumberAssertion.IsNegative`. -/
def numIsNegativeGo (ty : String) (v : Int) : List String :=
  if 0 ≤ v then ["got (" ++ ty ++ ") " ++ toString v ++ " but expect negative"] else []

/-- Embedding of `NumberAssertion.IsNonNegative`. -/
def numIsNonNegativeGo (ty : String) (v : Int) : List String :=
  if v < 0 then ["got (" ++ ty ++ ") " ++ toString v ++ " but expect non-negative"] else []

/-- Embedding of `NumberAssertion.IsNonPositive`. -/
def numIsNonPositiveGo (ty : String) (v : Int) : List String :=
  if 0 < v then ["got (" ++ ty ++ ") " ++ toString v ++ " but expect non-positive"] else []

/-- Embedding of `NumberAssertion.Between` (inclusive). -/
def numBetweenGo (ty : String) (v lower upper : Int) : List String :=
  if v < lower ∨ upper < v then
    ["got (" ++ ty ++ ") " ++ toString v ++ " but expect between (" ++ ty ++ ") " ++
     toString lower ++ " and (" ++ ty ++ ") " ++ toString upper]
  else []

/-- Embedding of `NumberAssertion.NotBetween`. -/
def numNotBetweenGo (ty : String) (v lower upper : Int) : List String :=
  if lower ≤ v ∧ v ≤ upper then
    ["got (" ++ ty ++ ") " ++ toString v ++ " but expect not between (" ++ ty ++ ") " ++
     toString lower ++ " and (" ++ ty ++ ") " ++ toString upper]
  else []

/-- Embedding of `NumberAssertion.IsNaN`: `nan` is the `isNaN` outcome
(`isNaNIntGo` for integer carriers, the float comparison otherwise). -/
def numIsNaNGo (ty vshow : String) (nan : Bool) : List String :=
  if nan then [] else ["got (" ++ ty ++ ") " ++ vshow ++ " but expect NaN"]

/-- Embedding of `NumberAssertion.IsInf`: `inf` is the `isInf` outcome. -/
def numIsInfGo (ty vshow : String) (inf : Bool) (sign : Int) : List String :=
  if inf then []
  else ["got (" ++ ty ++ ") " ++ vshow ++ " but expect infinite with sign " ++ toString sign]

/-- Embedding of `NumberAssertion.IsFinite`: fails if NaN or infinite. -/
def numIsFiniteGo (ty vshow : String) (nan inf : Bool) : List String :=
  if nan || inf then ["got (" ++ ty ++ ") " ++ vshow ++ " but expect finite"] else []

/-! ## The remaining string checks (src/string.go; `Len` is part_005)

`strings.ToLower`/`ToUpper` and whitespace trimming are modelled on the
ASCII range (`Char.toLower`/`Char.toUpper`, the four ASCII whitespace
characters); the fixed-pattern validators pass their `regexp.MatchString`
outcome as the usual `Option Bool` oracle. -/

/-- Model of `strings.ToLower` (ASCII range). -/
def toLowerGo (s : String) : String := ⟨s.data.map Char.toLower⟩

/-- Model of `strings.ToUpper` (ASCII range). -/
def toUpperGo (s : String) : String := ⟨s.data.map Char.toUpper⟩

/-- Model of the whitespace class of `strings.TrimSpace` (ASCII range). -/
def isSpaceGo (c : Char) : Bool :=
  c = ' ' || c = '\t' || c = '\n' || c = '\r'

/-- Model of `strings.TrimSpace`: leading and trailing whitespace
removed. -/
def trimSpaceGo (s : String) : String :=
  ⟨((s.data.dropWhile isSpaceGo).reverse.dropWhile isSpaceGo).reverse⟩

/-- Embedding of `StringAssertion.Length` (src/string.go lines 44-51;
`Len` of part_005 has the same structure): Go `len` is the byte length. -/
def strLengthGo (v : String) (length : Nat) : List String :=
  if v.utf8ByteSize ≠ length then
    ["length mismatch, got (string) " ++ v ++ " with length " ++
     toString v.utf8ByteSize ++ " but expect length " ++ toString length]
  else []

/-- Embedding of `StringAssertion.Equal` (src/string.go lines 54-61). -/
def strEqualGo (v expect : String) : List String :=
  if v ≠ expect then
    ["strings are not equal, got (string) " ++ v ++ " but expect (string) " ++ expect]
  else []

/-- Embedding of `StringAssertion.NotEqual` (src/string.go lines 64-71). -/
def strNotEqualGo (v expect : String) : List String :=
  if v = expect then
    ["strings are equal, got (string) " ++ v ++ " but expect not"]
  else []

/-- Embedding of `StringAssertion.EqualFold` (Unicode folding modelled as
ASCII lowercasing). -/
def strEqualFoldGo (v s : String) : List String :=
  if toLowerGo v = toLowerGo s then []
  else ["strings are not equal under case-folding, got (string) " ++ v ++
        " but expect (string) " ++ s]

/-- Embedding of `StringAssertion.HasPrefix` (src/string.go lines 116-123). -/
def strHasPrefixGo (v p : String) : List String :=
  if p.data.isPrefixOf v.data then []
  else ["string does not start with the specified prefix, got (string) " ++ v ++
        " but expect to have prefix " ++ goQuote p]

/-- Embedding of `StringAssertion.HasSuffix` (src/string.go lines 126-133). -/
def strHasSuffixGo (v s : String) : List String :=
  if s.data.isSuffixOf v.data then []
  else ["string does not end with the specified suffix, got (string) " ++ v ++
        " but expect to have suffix " ++ goQuote s]

/-- Embedding of `StringAssertion.Contains` (src/string.go lines 136-143). -/
def strContainsGo (v substr : String) : List String :=
  if infixCheck substr.data v.data then []
  else ["string does not contain the specified substring, got (string) " ++ v ++
        " but expect to contain substring " ++ goQuote substr]

/-- Embedding of `StringAssertion.IsEmpty`. -/
def strIsEmptyGo (v : String) : List String :=
  if v ≠ "" then
    ["string is not empty, got (string) " ++ v ++ " but expect empty string"]
  else []

/-- Embedding of `StringAssertion.IsNotEmpty`. -/
def strIsNotEmptyGo (v : String) : List String :=
  if v = "" then
    ["string is empty, got (string) " ++ v ++ " but expect non-empty string"]
  else []

/-- Embedding of `StringAssertion.IsBlank`. -/
def strIsBlankGo (v : String) : List String :=
  if trimSpaceGo v ≠ "" then
    ["string contains non-whitespace characters, got (string) " ++ v ++
     " but expect blank string"]
  else []

/-- Embedding of `StringAssertion.IsNotBlank`. -/
def strIsNotBlankGo (v : String) : List String :=
  if trimSpaceGo v = "" then
    ["string is blank, got (string) " ++ v ++ " but expect non-blank string"]
  else []

/-- Embedding of `StringAssertion.IsLowerCase`. -/
def strIsLowerCaseGo (v : String) : List String :=
  if v ≠ toLowerGo v then
    ["string contains uppercase characters, got (string) " ++ v ++
     " but expect lowercase string"]
  else []

/-- Embedding of `StringAssertion.IsUpperCase`. -/
def strIsUpperCaseGo (v : String) : List String :=
  if v ≠ toUpperGo v then
    ["string contains lowercase characters, got (string) " ++ v ++
     " but expect uppercase string"]
  else []

/-- Embedding of `StringAssertion.IsNumeric`: the loop fails (and breaks)
at the first character outside '0'..'9'. -/
def strIsNumericGo (v : String) : List String :=
  if v.data.any (fun r => decide (r < '0') || decide ('9' < r)) then
    ["string contains non-numeric characters, got (string) " ++ v ++
     " but expect numeric string"]
  else []

/-- Embedding of `StringAssertion.IsAlpha`. -/
def strIsAlphaGo (v : String) : List String :=
  if v.data.any (fun r =>
      (decide (r < 'a') || decide ('z' < r)) && (decide (r < 'A') || decide ('Z' < r))) then
    ["string contains non-alphabetic characters, got (string) " ++ v ++
     " but expect alphabetic string"]
  else []

/-- Embedding of `StringAssertion.IsAlphaNumeric`. -/
def strIsAlphaNumericGo (v : String) : List String :=
  if v.data.any (fun r =>
      (decide (r < 'a') || decide ('z' < r)) && (decide (r < 'A') || decide ('Z' < r)) &&
      (decide (r < '0') || decide ('9' < r))) then
    ["string contains non-alphanumeric characters, got (string) " ++ v ++
     " but expect alphanumeric string"]
  else []

/-- Embedding of `StringAssertion.IsEmail` (fixed pattern; the
`regexp.MatchString` outcome is the oracle `re`). -/
def strIsEmailGo (re : Option Bool) (v : String) : List String :=
  match re with
  | some true => []
  | _ => ["string is not a valid email, got (string) " ++ v ++
          " but expect valid email address"]

/-- Embedding of `StringAssertion.IsURL`. -/
def strIsURLGo (re : Option Bool) (v : String) : List String :=
  match re with
  | some true => []
  | _ => ["string is not a valid URL, got (string) " ++ v ++ " but expect valid URL"]

/-- Embedding of `StringAssertion.IsIP`. -/
def strIsIPGo (re : Option Bool) (v : String) : List String :=
  match re with
  | some true => []
  | _ => ["string is not a valid IP, got (string) " ++ v ++
          " but expect valid IP address"]

/-- Embedding of `StringAssertion.IsHex`. -/
def strIsHexGo (re : Option Bool) (v : String) : List String :=
  match re with
  | some true => []
  | _ => ["string is not a valid hexadecimal, got (string) " ++ v ++
          " but expect valid hexadecimal number"]

/-- Embedding of `StringAssertion.IsBase64`. -/
def strIsBase64Go (re : Option Bool) (v : String) : List String :=
  match re with
  | some true => []
  | _ => ["string is not a valid Base64, got (string) " ++ v ++
          " but expect valid Base64 encoded string"]
/-! ## The remaining slice checks (src/slice.go) -/

/-- The first failure message produced by a fail-and-return loop over a
list: the message of the first element on which `f` produces one. -/
def firstMsg {α : Type} (f : α → Option String) : List α → List String
  | [] => []
  | x :: xs =>
    match f x with
    | some m => [m]
    | none => firstMsg f xs

/-- Embedding of `SliceAssertion.Len`. -/
def sliceLenGo {α : Type} [ToString α] (v : List α) (length : Nat) : List String :=
  if v.length ≠ length then
    ["got length " ++ toString v.length ++ " but expect length " ++ toString length]
  else []

/-- Embedding of `SliceAssertion.IsEmpty`. -/
def sliceIsEmptyGo {α : Type} [ToString α] (v : List α) : List String :=
  if v.length ≠ 0 then ["got " ++ goShowList v ++ " is not empty"] else []

/-- Embedding of `SliceAssertion.IsNotEmpty`. -/
def sliceIsNotEmptyGo {α : Type} [ToString α] (v : List α) : List String :=
  if v.length = 0 then ["got " ++ goShowList v ++ " is empty"] else []

/-- Embedding of `SliceAssertion.IsNil`: a Go slice distinguishes nil from
merely empty, so the nilness flag accompanies the elements. -/
def sliceIsNilGo {α : Type} [ToString α] (isnil : Bool) (v : List α) : List String :=
  if isnil then [] else ["got " ++ goShowList v ++ " is not nil"]

/-- Embedding of `SliceAssertion.IsNotNil`. -/
def sliceIsNotNilGo {α : Type} [ToString α] (isnil : Bool) (v : List α) : List String :=
  if isnil then ["got " ++ goShowList v ++ " is nil"] else []

/-- Embedding of `SliceAssertion.Zero` (nil or empty). -/
def sliceZeroGo {α : Type} [ToString α] (isnil : Bool) (v : List α) : List String :=
  if !isnil && v.length ≠ 0 then ["got " ++ goShowList v ++ " is not nil or empty"]
  else []

/-- Embedding of `SliceAssertion.NotZero` (neither nil nor empty). -/
def sliceNotZeroGo {α : Type} [ToString α] (isnil : Bool) (v : List α) : List String :=
  if isnil || v.length = 0 then ["got " ++ goShowList v ++ " is nil or empty"] else []

/-- The sliding window search of `SubSlice`: whether `sub` occurs
contiguously in the list. -/
def hasSubSeq {α : Type} [DecidableEq α] (sub : List α) : List α → Bool
  | [] => sub.isEmpty
  | x :: t => sub.isPrefixOf (x :: t) || hasSubSeq sub t

/-- Embedding of `SliceAssertion.SubSlice`: an empty candidate passes
before the search. -/
def sliceSubSliceGo {α : Type} [DecidableEq α] [ToString α] (v sub : List α) : List String :=
  if sub.isEmpty then []
  else if hasSubSeq sub v then []
  else ["got " ++ goShowList v ++ " does not contain sub-slice " ++ goShowList sub]

/-- Embedding of `SliceAssertion.NotSubSlice`. -/
def sliceNotSubSliceGo {α : Type} [DecidableEq α] [ToString α] (v sub : List α) : List String :=
  if sub.isEmpty then []
  else if hasSubSeq sub v then
    ["got " ++ goShowList v ++ " contains sub-slice " ++ goShowList sub]
  else []

/-- The element loop of `HasSuffix` after its length guard, `i` being the
absolute index `offset + j`. -/
def hasSufLoop {α : Type} [DecidableEq α] [ToString α] :
    Nat → List α → List α → List String
  | _, _, [] => []
  | _, [], _ :: _ => []
  | i, x :: xs, s :: ss =>
    if x = s then hasSufLoop (i + 1) xs ss
    else ["got element " ++ toString x ++ " at index " ++ toString i ++
          " does not match suffix element " ++ toString s]

/-- Embedding of `SliceAssertion.HasSuffix` (src/slice.go lines 187-202):
length guard, then comparison from `offset = len(v) - len(suffix)`. -/
def sliceHasSuffixGo {α : Type} [DecidableEq α] [ToString α] (v suffix : List α) :
    List String :=
  if v.length < suffix.length then
    ["got length " ++ toString v.length ++ " is less than suffix length " ++
     toString suffix.length]
  else hasSufLoop (v.length - suffix.length) (v.drop (v.length - suffix.length)) suffix

/-- The element loop of `SliceAssertion.Equal` after its length guard. -/
def sliceEqLoop {α : Type} [DecidableEq α] [ToString α] :
    Nat → List α → List α → List String
  | _, _, [] => []
  | _, [], _ :: _ => []
  | i, x :: xs, e :: es =>
    if x = e then sliceEqLoop (i + 1) xs es
    else ["got element " ++ toString x ++ " at index " ++ toString i ++
          " but expect " ++ toString e]

/-- Embedding of `SliceAssertion.Equal` (src/slice.go lines 205-219). -/
def sliceEqualGo {α : Type} [DecidableEq α] [ToString α] (v expect : List α) : List String :=
  if v.length ≠ expect.length then
    ["got length " ++ toString v.length ++ " but expect length " ++ toString expect.length]
  else sliceEqLoop 0 v expect

/-- Embedding of `SliceAssertion.NotEqual`: the length guard plus the
element scan succeed together exactly when the lists are equal. -/
def sliceNotEqualGo {α : Type} [DecidableEq α] [ToString α] (v expect : List α) : List String :=
  if v = expect then ["got " ++ goShowList v ++ " but expect not " ++ goShowList expect]
  else []

/-- The seen-set loop of `IsUnique`: fails at the first element already
seen. -/
def isUniqueLoop {α : Type} [DecidableEq α] [ToString α] :
    List α → List α → List String
  | _, [] => []
  | seen, x :: xs =>
    if seen.any (fun y => decide (y = x)) then ["got duplicate element " ++ toString x]
    else isUniqueLoop (x :: seen) xs

/-- Embedding of `SliceAssertion.IsUnique`. -/
def sliceIsUniqueGo {α : Type} [DecidableEq α] [ToString α] (v : List α) : List String :=
  isUniqueLoop [] v

/-- The seen-set loop of `IsUniqueBy` over the key images. -/
def isUniqueByLoop {α β : Type} [DecidableEq β] [ToString α] (fn : α → β) :
    List β → List α → List String
  | _, [] => []
  | seen, x :: xs =>
    if seen.any (fun k => decide (k = fn x)) then ["got duplicate element " ++ toString x]
    else isUniqueByLoop fn (fn x :: seen) xs

/-- Embedding of `SliceAssertion.IsUniqueBy`. -/
def sliceIsUniqueByGo {α β : Type} [DecidableEq β] [ToString α] (fn : α → β)
    (v : List α) : List String :=
  isUniqueByLoop fn [] v

/-- Embedding of `SliceAssertion.All`: fails at the first element not
satisfying the predicate. -/
def sliceAllGo {α : Type} [ToString α] (fn : α → Bool) (v : List α) : List String :=
  firstMsg (fun x =>
    if fn x then none
    else some ("got element " ++ toString x ++ " does not satisfy the condition")) v

/-- Embedding of `SliceAssertion.Any`. -/
def sliceAnyGo {α : Type} [ToString α] (fn : α → Bool) (v : List α) : List String :=
  if v.any fn then []
  else ["no element in " ++ goShowList v ++ " satisfies the condition"]

/-- Embedding of `SliceAssertion.None`: fails at the first element
satisfying the predicate. -/
def sliceNoneGo {α : Type} [ToString α] (fn : α → Bool) (v : List α) : List String :=
  firstMsg (fun x =>
    if fn x then some ("got element " ++ toString x ++ " satisfies the condition")
    else none) v

/-! ## The map checks (MapAssertion, second file of src/error.go)

A Go map over comparable key and value types is modelled as a key-unique
association list; iteration order models the map's (arbitrary) range
order. -/

/-- %v rendering of a modelled map. -/
def goMapShow {K V : Type} [ToString K] [ToString V] (m : List (K × V)) : String :=
  "map[" ++ String.intercalate " " (m.map fun kv => toString kv.1 ++ ":" ++ toString kv.2) ++ "]"

/-- Go map indexing `m[k]` (the `ok` form): the value at the first
matching key. -/
def goLookup {K V : Type} [DecidableEq K] : List (K × V) → K → Option V
  | [], _ => none
  | kv :: t, k => if kv.1 = k then some kv.2 else goLookup t k

/-- Embedding of `MapAssertion.Len`. -/
def mapLenGo {K V : Type} [ToString K] [ToString V] (m : List (K × V)) (length : Nat) :
    List String :=
  if m.length ≠ length then
    ["got length " ++ toString m.length ++ " but expect length " ++ toString length]
  else []

/-- Embedding of `MapAssertion.Empty`. -/
def mapEmptyGo {K V : Type} [ToString K] [ToString V] (m : List (K × V)) : List String :=
  if m.length ≠ 0 then ["got " ++ goMapShow m ++ " is not empty"] else []

/-- Embedding of `MapAssertion.NotEmpty`. -/
def mapNotEmptyGo {K V : Type} [ToString K] [ToString V] (m : List (K × V)) : List String :=
  if m.length = 0 then ["got " ++ goMapShow m ++ " is empty"] else []

/-- Embedding of `MapAssertion.Equal`: length guard, then the first entry
whose value differs from (or is missing in) the expected map fails;
`zeroV` is the zero value of V that Go's indexing yields for a missing
key and that the message then renders. -/
def mapEqualGo {K V : Type} [DecidableEq K] [DecidableEq V] [ToString K] [ToString V]
    (zeroV : V) (m expect : List (K × V)) : List String :=
  if m.length ≠ expect.length then
    ["got length " ++ toString m.length ++ " but expect length " ++ toString expect.length]
  else
    firstMsg (fun kv =>
      match goLookup expect kv.1 with
      | some ev =>
        if kv.2 = ev then none
        else some ("got element " ++ toString kv.2 ++ " at key " ++ toString kv.1 ++
                   " but expect " ++ toString ev)
      | none =>
        some ("got element " ++ toString kv.2 ++ " at key " ++ toString kv.1 ++
              " but expect " ++ toString zeroV)) m

/-- Embedding of `MapAssertion.NotEqual`: the equality scan succeeds
exactly when the lengths match and every entry agrees. -/
def mapNotEqualGo {K V : Type} [DecidableEq K] [DecidableEq V] [ToString K] [ToString V]
    (m expect : List (K × V)) : List String :=
  if m.length = expect.length ∧ m.all (fun kv => goLookup expect kv.1 = some kv.2) then
    ["got " ++ goMapShow m ++ " but expect not " ++ goMapShow expect]
  else []

/-- Embedding of `MapAssertion.Contains` (key presence). -/
def mapContainsGo {K V : Type} [DecidableEq K] [ToString K] [ToString V]
    (m : List (K × V)) (key : K) : List String :=
  match goLookup m key with
  | some _ => []
  | none => ["got " ++ goMapShow m ++ " does not contain key " ++ toString key]

/-- Embedding of `MapAssertion.NotContains`. -/
def mapNotContainsGo {K V : Type} [DecidableEq K] [ToString K] [ToString V]
    (m : List (K × V)) (key : K) : List String :=
  match goLookup m key with
  | some _ => ["got " ++ goMapShow m ++ " contains key " ++ toString key]
  | none => []

/-- Embedding of `MapAssertion.ContainsValue` (linear value scan). -/
def mapContainsValueGo {K V : Type} [DecidableEq V] [ToString K] [ToString V]
    (m : List (K × V)) (value : V) : List String :=
  if m.any (fun kv => decide (kv.2 = value)) then []
  else ["got " ++ goMapShow m ++ " does not contain value " ++ toString value]

/-- Embedding of `MapAssertion.NotContainsValue`. -/
def mapNotContainsValueGo {K V : Type} [DecidableEq V] [ToString K] [ToString V]
    (m : List (K × V)) (value : V) : List String :=
  if m.any (fun kv => decide (kv.2 = value)) then
    ["got " ++ goMapShow m ++ " contains value " ++ toString value]
  else []

/-- Embedding of `MapAssertion.HasKeyValue`. -/
def mapHasKeyValueGo {K V : Type} [DecidableEq K] [DecidableEq V] [ToString K] [ToString V]
    (m : List (K × V)) (key : K) (value : V) : List String :=
  if goLookup m key = some value then []
  else ["got " ++ goMapShow m ++ " does not contain key-value pair " ++ toString key ++
        ":" ++ toString value]

/-- Embedding of `MapAssertion.ContainsKeys`: fails at the first missing
key. -/
def mapContainsKeysGo {K V : Type} [DecidableEq K] [ToString K] [ToString V]
    (m : List (K × V)) (keys : List K) : List String :=
  firstMsg (fun k =>
    match goLookup m k with
    | some _ => none
    | none => some ("got " ++ goMapShow m ++ " does not contain key " ++ toString k)) keys

/-- Embedding of `MapAssertion.NotContainsKeys`: fails at the first
present key. -/
def mapNotContainsKeysGo {K V : Type} [DecidableEq K] [ToString K] [ToString V]
    (m : List (K × V)) (keys : List K) : List String :=
  firstMsg (fun k =>
    match goLookup m k with
    | some _ => some ("got " ++ goMapShow m ++ " contains key " ++ toString k)
    | none => none) keys

/-- Embedding of `MapAssertion.ContainsValues`: fails at the first value
not found. -/
def mapContainsValuesGo {K V : Type} [DecidableEq V] [ToString K] [ToString V]
    (m : List (K × V)) (values : List V) : List String :=
  firstMsg (fun value =>
    if m.any (fun kv => decide (kv.2 = value)) then none
    else some ("got " ++ goMapShow m ++ " does not contain value " ++ toString value)) values

/-- Embedding of `MapAssertion.NotContainsValues`: fails at the first
value found. -/
def mapNotContainsValuesGo {K V : Type} [DecidableEq V] [ToString K] [ToString V]
    (m : List (K × V)) (values : List V) : List String :=
  firstMsg (fun value =>
    if m.any (fun kv => decide (kv.2 = value)) then
      some ("got " ++ goMapShow m ++ " contains value " ++ toString value)
    else none) values

/-- Embedding of `MapAssertion.IsSubsetOf`: fails at the first own entry
not present in the expected map. -/
def mapIsSubsetOfGo {K V : Type} [DecidableEq K] [DecidableEq V] [ToString K] [ToString V]
    (m expect : List (K × V)) : List String :=
  firstMsg (fun kv =>
    if goLookup expect kv.1 = some kv.2 then none
    else some ("got " ++ goMapShow m ++ " is not a subset of " ++ goMapShow expect)) m

/-- Embedding of `MapAssertion.IsSupersetOf`: fails at the first expected
entry not present in the map. -/
def mapIsSupersetOfGo {K V : Type} [DecidableEq K] [DecidableEq V] [ToString K] [ToString V]
    (m expect : List (K × V)) : List String :=
  firstMsg (fun kv =>
    if goLookup m kv.1 = some kv.2 then none
    else some ("got " ++ goMapShow m ++ " is not a superset of " ++ goMapShow expect)) expect

/-- Embedding of `MapAssertion.HasSameKeys`: length guard, then the first
own key absent from the expected map fails. -/
def mapHasSameKeysGo {K V : Type} [DecidableEq K] [ToString K] [ToString V]
    (m expect : List (K × V)) : List String :=
  if m.length ≠ expect.length then
    ["got " ++ goMapShow m ++ " does not have the same keys as " ++ goMapShow expect]
  else
    firstMsg (fun kv =>
      match goLookup expect kv.1 with
      | some _ => none
      | none => some ("got " ++ goMapShow m ++ " does not have the same keys as " ++
                      goMapShow expect)) m

/-- One step of the value-count balancing of `HasSameValues`. -/
def bumpCount {V : Type} [DecidableEq V] : List (V × Int) → V → Int → List (V × Int)
  | [], v, d => [(v, d)]
  | p :: t, v, d => if p.1 = v then (p.1, p.2 + d) :: t else p :: bumpCount t v d

/-- Embedding of `MapAssertion.HasSameValues`: length guard, then the
value counts of the map minus those of the expected map must all balance
to zero; the first unbalanced count fails. -/
def mapHasSameValuesGo {K V : Type} [DecidableEq V] [ToString K] [ToString V]
    (m expect : List (K × V)) : List String :=
  if m.length ≠ expect.length then
    ["got " ++ goMapShow m ++ " does not have the same values as " ++ goMapShow expect]
  else
    let counts :=
      (expect.map (·.2)).foldl (fun c v => bumpCount c v (-1))
        ((m.map (·.2)).foldl (fun c v => bumpCount c v 1) [])
    firstMsg (fun p =>
      if p.2 = 0 then none
      else some ("got " ++ goMapShow m ++ " does not have the same values as " ++
                 goMapShow expect)) counts

/-! ## The remaining error checks (src/unnamed/part_002 lines 765-827 and
src/error.go) -/

/-- Embedding of `ErrorAssertion.IsNil`. -/
def errorIsNilGo (held : Option GoError) : List String :=
  match held with
  | some h => ["expect nil error, got: " ++ errText h]
  | none => []

/-- Embedding of `ErrorAssertion.IsNotNil`. -/
def errorIsNotNilGo (held : Option GoError) : List String :=
  match held with
  | none => ["expect not nil error"]
  | some _ => []

/-- Embedding of `ErrorAssertion.As`: the outcome of `errors.As(a.v,
&target)` (reflection over the chain) is the oracle `asResult`; `targetTy`
renders %T of the target. -/
def errorAsGo (asResult : Bool) (targetTy : String) : List String :=
  if asResult then [] else ["expect error to be of type: " ++ targetTy]

/-- Embedding of `ErrorAssertion.ContainsMessage`: nil errors fail first;
otherwise a substring search over the error text. -/
def errorContainsMessageGo (held : Option GoError) (substring : String) : List String :=
  match held with
  | none => ["expect not nil error"]
  | some h =>
    if infixCheck substring.data (errText h).data then []
    else ["expect error message to contain: " ++ substring ++ ", got: " ++ errText h]

/-- Embedding of `ErrorAssertion.Matches` (also the only check of the
src/error.go revision): nil errors fail first; otherwise the `matches`
helper runs on the error text. -/
def errorMatchesGo (re : Option Bool) (held : Option GoError) (expr : String) : List String :=
  match held with
  | none => ["expect not nil error"]
  | some h => matchesGo re (errText h) expr

/-! ## Helper lemmas -/

/-- Two strings differing in their first character differ. -/
theorem ne_of_headChar {s t : String} (h : s.data.head? ≠ t.data.head?) : s ≠ t :=
  fun e => h (congrArg (fun q => q.data.head?) e)

/-- String append concatenates the character data. -/
theorem strDataAppend (p r : String) : (p ++ r).data = p.data ++ r.data := by
  cases p
  cases r
  rfl

/-- Any extension of the literal "got " differs from "invalid pattern". -/
theorem gotNeInvalidPattern (r : String) : ("got " ++ r) ≠ "invalid pattern" := by
  apply ne_of_headChar
  rw [strDataAppend]
  intro h
  simp at h

/-- The adjacent-pair scan succeeds exactly when no adjacent pair is bad,
i.e. when the chain relation `bad · · = false` holds along the list. -/
theorem adjScan_eq_nil_iff {α : Type} (bad : α → α → Bool)
    (mk : α → Nat → α → Nat → String) :
    ∀ (xs : List α) (i : Nat) (prev : α),
      adjScan bad mk i prev xs = [] ↔
        List.Chain (fun a b => bad a b = false) prev xs := by
  intro xs
  induction xs with
  | nil => intro i prev; simp [adjScan]
  | cons x xs ih =>
    intro i prev
    by_cases h : bad prev x = true
    · simp [adjScan, h, List.chain_cons]
    · simp only [Bool.not_eq_true] at h
      simp [adjScan, h, List.chain_cons, ih]

/-- The adjacent-pair scan reports at most one message. -/
theorem adjScan_length_le {α : Type} (bad : α → α → Bool)
    (mk : α → Nat → α → Nat → String) :
    ∀ (xs : List α) (i : Nat) (prev : α), (adjScan bad mk i prev xs).length ≤ 1 := by
  intro xs
  induction xs with
  | nil => intro i prev; simp [adjScan]
  | cons x xs ih =>
    intro i prev
    by_cases h : bad prev x = true
    · simp [adjScan, h]
    · simp only [Bool.not_eq_true] at h
      simp [adjScan, h, ih]

/-- A chain relation can be replaced by a pointwise equivalent one. -/
theorem chain_congr {α : Type} {R S : α → α → Prop} (h : ∀ a b, R a b ↔ S a b) :
    ∀ (a : α) (l : List α), List.Chain R a l ↔ List.Chain S a l := by
  intro a l
  induction l generalizing a with
  | nil => simp
  | cons x xs ih => simp [List.chain_cons, h, ih]

/-- The ascending scans succeed exactly on chains of `≤`. -/
theorem adjScanLe_iff {α : Type} [LinearOrder α]
    (mk : α → Nat → α → Nat → String) (x : α) (xs : List α) :
    adjScan (fun p c => decide (c < p)) mk 1 x xs = [] ↔ List.Chain (· ≤ ·) x xs := by
  rw [adjScan_eq_nil_iff]
  exact chain_congr (fun a b => by simp [decide_eq_false_iff_not, not_lt]) x xs

/-- The descending scans succeed exactly on chains of `≥`. -/
theorem adjScanGe_iff {α : Type} [LinearOrder α]
    (mk : α → Nat → α → Nat → String) (x : α) (xs : List α) :
    adjScan (fun p c => decide (p < c)) mk 1 x xs = [] ↔
      List.Chain (fun a b => b ≤ a) x xs := by
  rw [adjScan_eq_nil_iff]
  exact chain_congr (fun a b => by simp [decide_eq_false_iff_not, not_lt]) x xs

/-- The element loop of `HasPrefix` accepts any true prefix. -/
theorem hasPrefLoop_of_prefix {α : Type} [DecidableEq α] [ToString α] :
    ∀ (pre v : List α) (i : Nat), pre <+: v → hasPrefLoop i v pre = [] := by
  intro pre
  induction pre with
  | nil => intro v i _; cases v <;> rfl
  | cons p ps ih =>
    intro v i hp
    obtain ⟨t, ht⟩ := hp
    subst ht
    simp only [List.cons_append, hasPrefLoop, if_pos rfl]
    exact ih (ps ++ t) (i + 1) ⟨t, rfl⟩

/-- The element loop of `HasPrefix` reports at most one message. -/
theorem hasPrefLoop_length_le {α : Type} [DecidableEq α] [ToString α] :
    ∀ (pre v : List α) (i : Nat), (hasPrefLoop i v pre).length ≤ 1 := by
  intro pre
  induction pre with
  | nil => intro v i; cases v <;> simp [hasPrefLoop]
  | cons p ps ih =>
    intro v i
    cases v with
    | nil => simp [hasPrefLoop]
    | cons x xs =>
      by_cases h : x = p
      · simp [hasPrefLoop, h, ih]
      · simp [hasPrefLoop, h]

/-! ## Claim theorems -/

/-- C1 (counterexample): with held error `wrap "wrapped: x" (base "x")` and
target `base "x"`, the held error wraps the target, so the claim predicts
that `Is` passes; but the source's `errors.Is(target, a.v)` searches the
chain of the target, finds nothing, and the check fails with one reporter
message. -/
theorem errorIs_held_anchored_refuted :
    chainHas (.wrap "wrapped: x" (.base "x")) (.base "x") = true ∧
    errorIsGo (some (.wrap "wrapped: x" (.base "x"))) (some (.base "x")) =
      .ok ["expect error: x, got: wrapped: x"] ∧
    errorIsGo (some (.wrap "wrapped: x" (.base "x"))) (some (.base "x")) ≠ .ok [] := by
  refine ⟨by decide, by decide, by decide⟩

/-- C1 (amended): for non-nil held error e and non-nil target t,
`ErrorAssertion.Is(t)` passes if and only if t or some error that t wraps
equals e (the chain search is anchored on the target, because the source
calls `errors.Is(target, a.v)`); `IsNot(t)` is its exact negation. -/
theorem errorIs_target_anchored (h t : GoError) :
    (errorIsGo (some h) (some t) = .ok [] ↔ chainHas t h = true) ∧
    (errorIsNotGo (some h) (some t) = .ok [] ↔ chainHas t h = false) := by
  unfold errorIsGo errorIsNotGo goErrorsIs
  by_cases hc : chainHas t h = true
  · simp [hc]
  · simp only [Bool.not_eq_true] at hc
    simp [hc]

/-- C1 witness for `errorIs_target_anchored` at a concrete wrapped pair. -/
theorem errorIs_target_anchored_witness :
    (errorIsGo (some (.base "x")) (some (.wrap "wrapped: x" (.base "x"))) = .ok [] ↔
      chainHas (.wrap "wrapped: x" (.base "x")) (.base "x") = true) ∧
    (errorIsNotGo (some (.base "x")) (some (.wrap "wrapped: x" (.base "x"))) = .ok [] ↔
      chainHas (.wrap "wrapped: x" (.base "x")) (.base "x") = false) :=
  errorIs_target_anchored (.base "x") (.wrap "wrapped: x" (.base "x"))

/-- C2: the two cited inputs do not terminate in a reporter call.
`ErrorAssertion.Is` with a nil held error and a non-equivalent target
reaches `a.v.Error()` on the nil error interface, and
`ThatAssertion.TypeOf` with a nil actual value reaches
`e1.AssignableTo(e2)` on a nil `reflect.Type`; both are runtime faults,
with zero reporter calls, for every target type and every assignability
oracle. -/
theorem nil_inputs_fault :
    errorIsGo none (some (.base "an error")) =
      .error "runtime error: invalid memory address or nil pointer dereference" ∧
    (∀ (f : GoType → GoType → Bool) (e : GoType),
      thatTypeOfGo f none (some e) =
        .error "runtime error: invalid memory address or nil pointer dereference") := by
  exact ⟨rfl, fun f e => rfl⟩

/-- C3: `InDelta` at an unsigned carrier computes the wrapped difference.
At `uint8` with actual 1, expect 3, delta 2 the true absolute difference
is 2 <= 2 (the spec's pass condition holds, as it does for the exact
signed instantiation), yet the unsigned instantiation computes
`diff = 254 > 2` and fails with one reporter message. -/
theorem inDelta_unsigned_wraparound :
    uintInDeltaGo 8 "uint8" 1 3 2 =
      ["got (uint8) 1 is not within delta (uint8) 2 of (uint8) 3"] ∧
    goUintSub 8 1 3 = 254 ∧
    specInDeltaOk 1 3 2 ∧
    intInDeltaGo "int" 1 3 2 = [] := by
  refine ⟨by decide, by decide, ?_, by decide⟩
  unfold specInDeltaOk
  decide

/-- C4 (counterexample): in the current src/string.go revision,
`StringAssertion.Matches` on subject "anything" with the invalid pattern
"[" produces exactly the message it produces for a valid non-matching
pattern - not a dedicated "invalid pattern" message. -/
theorem stringMatches_no_dedicated_message :
    stringMatchesGo none "anything" "[" = stringMatchesGo (some false) "anything" "[" ∧
    stringMatchesGo none "anything" "[" ≠ ["invalid pattern"] := by
  refine ⟨rfl, by decide⟩

/-- C4 (amended): the `matches` helper of the part_004/part_005 revision
(used by `Panic`, `Error`, `ErrorAssertion.Matches` and that revision's
`StringAssertion.Matches`) fails with the dedicated message
"invalid pattern" on a compile error, distinct from its non-match message;
the `StringAssertion.Matches` of src/string.go instead emits one and the
same message for a compile error and for a non-match. -/
theorem matches_helper_distinguishes (v expr : String) :
    matchesGo none v expr = ["invalid pattern"] ∧
    matchesGo (some false) v expr =
      ["got " ++ goQuote v ++ " which does not match " ++ goQuote expr] ∧
    matchesGo (some false) v expr ≠ matchesGo none v expr ∧
    stringMatchesGo none v expr = stringMatchesGo (some false) v expr := by
  refine ⟨rfl, rfl, ?_, rfl⟩
  simp only [matchesGo, ne_eq, List.cons.injEq, and_true]
  rw [String.append_assoc, String.append_assoc]
  exact gotNeInvalidPattern _

/-- C9: `Nil` passes and `NotNil` fails on a nil value of every nilable
kind (pointer, slice, map, channel, function, unsafe pointer) boxed into
an interface argument, and on the untyped nil itself; `Nil` fails on every
concrete non-nilable value such as an int. -/
theorem nil_checks_on_typed_nils :
    (assertNilGo .untypedNil = [] ∧ assertNotNilGo .untypedNil ≠ []) ∧
    (assertNilGo (.ptrV true) = [] ∧ assertNotNilGo (.ptrV true) ≠ []) ∧
    (assertNilGo (.sliceV true) = [] ∧ assertNotNilGo (.sliceV true) ≠ []) ∧
    (assertNilGo (.mapV true) = [] ∧ assertNotNilGo (.mapV true) ≠ []) ∧
    (assertNilGo (.chanV true) = [] ∧ assertNotNilGo (.chanV true) ≠ []) ∧
    (assertNilGo (.funcV true) = [] ∧ assertNotNilGo (.funcV true) ≠ []) ∧
    (assertNilGo (.uptrV true) = [] ∧ assertNotNilGo (.uptrV true) ≠ []) ∧
    (∀ n : Int, assertNilGo (.intV n) ≠ []) := by
  refine ⟨by decide, by decide, by decide, by decide, by decide, by decide, by decide, ?_⟩
  intro n
  simp [assertNilGo, reflectIsNil]

/-- C10: a function whose panic payload renders exactly as the internal
sentinel "<<SUCCESS>>" makes `Panic` report "did not panic" (for every
pattern and every regexp outcome), although the function did not terminate
normally; so the "did not panic" verdict is not equivalent to normal
termination. -/
theorem panic_sentinel_payload (re : Option Bool) (expr : String) :
    assertPanicGo re (.panicsWith "<<SUCCESS>>") expr = ["did not panic"] ∧
    FnBehavior.panicsWith "<<SUCCESS>>" ≠ FnBehavior.normal := by
  refine ⟨rfl, by simp⟩

/-- C7: the non-strict slice ordering checks pass exactly on chains of the
non-strict comparison, so `IsNonDecreasing` has the same verdict as
`IsSorted` on every slice, and `IsNonIncreasing` the same verdict as
`IsSortedDescending` (their failure message texts differ, their pass/fail
behaviour does not). -/
theorem nonStrict_checks_equiv_sorted (α : Type) [LinearOrder α] [ToString α]
    (v : List α) :
    (sliceIsNonDecreasingGo v = [] ↔ List.Chain' (· ≤ ·) v) ∧
    (sliceIsSortedGo v = [] ↔ List.Chain' (· ≤ ·) v) ∧
    ((sliceIsNonDecreasingGo v = []) ↔ (sliceIsSortedGo v = [])) ∧
    (sliceIsNonIncreasingGo v = [] ↔ List.Chain' (fun a b => b ≤ a) v) ∧
    (sliceIsSortedDescGo v = [] ↔ List.Chain' (fun a b => b ≤ a) v) ∧
    ((sliceIsNonIncreasingGo v = []) ↔ (sliceIsSortedDescGo v = [])) := by
  cases v with
  | nil =>
    refine ⟨?_, ?_, ?_, ?_, ?_, ?_⟩ <;>
      simp [sliceIsNonDecreasingGo, sliceIsSortedGo, sliceIsNonIncreasingGo,
        sliceIsSortedDescGo, List.Chain']
  | cons x xs =>
    have c1 : List.Chain' (· ≤ ·) (x :: xs) ↔ List.Chain (· ≤ ·) x xs := Iff.rfl
    have c2 : List.Chain' (fun a b : α => b ≤ a) (x :: xs) ↔
        List.Chain (fun a b : α => b ≤ a) x xs := Iff.rfl
    have h1 : sliceIsNonDecreasingGo (x :: xs) = [] ↔ List.Chain (· ≤ ·) x xs := by
      simp only [sliceIsNonDecreasingGo]
      exact adjScanLe_iff _ x xs
    have h2 : sliceIsSortedGo (x :: xs) = [] ↔ List.Chain (· ≤ ·) x xs := by
      simp only [sliceIsSortedGo]
      exact adjScanLe_iff _ x xs
    have h3 : sliceIsNonIncreasingGo (x :: xs) = [] ↔
        List.Chain (fun a b : α => b ≤ a) x xs := by
      simp only [sliceIsNonIncreasingGo]
      exact adjScanGe_iff _ x xs
    have h4 : sliceIsSortedDescGo (x :: xs) = [] ↔
        List.Chain (fun a b : α => b ≤ a) x xs := by
      simp only [sliceIsSortedDescGo]
      exact adjScanGe_iff _ x xs
    exact ⟨h1.trans c1.symm, h2.trans c1.symm, h1.trans h2.symm,
      h3.trans c2.symm, h4.trans c2.symm, h3.trans h4.symm⟩

/-- C8: `HasPrefix` passes on every initial segment `s[:k]` of the subject
(`k <= len s`), and fails with the length-mismatch message whenever the
candidate is longer than the subject - the length guard runs before any
element access, so no index is ever out of range. -/
theorem hasPrefix_take_and_length (α : Type) [DecidableEq α] [ToString α]
    (s : List α) (k : Nat) (p : List α) :
    (k ≤ s.length → sliceHasPrefixGo s (s.take k) = []) ∧
    (s.length < p.length →
      sliceHasPrefixGo s p =
        ["got length " ++ toString s.length ++ " is less than prefix length " ++
         toString p.length]) := by
  constructor
  · intro _
    unfold sliceHasPrefixGo
    rw [if_neg]
    · exact hasPrefLoop_of_prefix _ _ 0 (List.take_prefix k s)
    · simp only [List.length_take, not_lt]
      omega
  · intro h
    unfold sliceHasPrefixGo
    rw [if_pos h]

/-- C8 witness for `hasPrefix_take_and_length`: the 2-element initial
segment of [1, 2, 3] passes, a 4-element candidate fails with the
length-mismatch message. -/
theorem hasPrefix_take_and_length_witness :
    sliceHasPrefixGo ([1, 2, 3] : List Int) (([1, 2, 3] : List Int).take 2) = [] ∧
    sliceHasPrefixGo ([1, 2, 3] : List Int) [9, 9, 9, 9] =
      ["got length 3 is less than prefix length 4"] :=
  ⟨(hasPrefix_take_and_length Int [1, 2, 3] 2 [9, 9, 9, 9]).1 (by decide),
   (hasPrefix_take_and_length Int [1, 2, 3] 2 [9, 9, 9, 9]).2 (by decide)⟩

/-- C5 (counterexample): in the current src/string.go revision, a subject
that fails to parse makes `JsonEqual` fail with a fixed
"invalid JSON in got value" message that does not contain the underlying
parse error text anywhere. -/
theorem stringJsonEqual_fixed_parse_message :
    parseJson "not json" = .error "invalid character in literal null" ∧
    stringJsonEqualGo "not json" "\x7b\x7d" =
      ["invalid JSON in got value, got (string) not json but expect (string) \x7b\x7d"] ∧
    infixCheck "invalid character in literal null".data
      "invalid JSON in got value, got (string) not json but expect (string) \x7b\x7d".data
      = false := by
  refine ⟨by decide, by decide, by decide⟩

/-- C5 (amended): in both revisions, `JsonEqual` passes exactly when both
operands parse and their decoded trees are equal (object key order and
surrounding whitespace never reach the tree, see the witness); when a side
fails to parse, the part_005 revision fails with exactly the parse error
text, while the src/string.go revision fails with its fixed
"invalid JSON in got value" message. -/
theorem jsonEqual_pass_iff_trees_equal (a b : String) :
    (jsonEqualGo a b = [] ↔ ∃ t, parseJson a = .ok t ∧ parseJson b = .ok t) ∧
    (stringJsonEqualGo a b = [] ↔ ∃ t, parseJson a = .ok t ∧ parseJson b = .ok t) ∧
    (∀ e, parseJson a = .error e → jsonEqualGo a b = [e]) ∧
    (∀ e t, parseJson a = .ok t → parseJson b = .error e → jsonEqualGo a b = [e]) ∧
    (∀ e, parseJson a = .error e →
      stringJsonEqualGo a b =
        ["invalid JSON in got value, got (string) " ++ a ++ " but expect (string) " ++ b]) := by
  cases ha : parseJson a with
  | error ea =>
    refine ⟨?_, ?_, ?_, ?_, ?_⟩
    · simp [jsonEqualGo, ha]
    · simp [stringJsonEqualGo, ha]
    · intro e he
      simp only [Except.error.injEq] at he
      subst he
      simp [jsonEqualGo, ha]
    · intro e t hok
      exact absurd hok (by simp)
    · intro e _
      simp [stringJsonEqualGo, ha]
  | ok ta =>
    cases hb : parseJson b with
    | error eb =>
      refine ⟨?_, ?_, ?_, ?_, ?_⟩
      · simp [jsonEqualGo, ha, hb]
      · simp [stringJsonEqualGo, ha, hb]
      · intro e he
        exact absurd he (by simp)
      · intro e t _ hberr
        simp only [Except.error.injEq] at hberr
        subst hberr
        simp [jsonEqualGo, ha, hb]
      · intro e he
        exact absurd he (by simp)
    | ok tb =>
      by_cases ht : ta = tb
      · subst ht
        refine ⟨?_, ?_, ?_, ?_, ?_⟩
        · simp [jsonEqualGo, ha, hb]
        · simp [stringJsonEqualGo, ha, hb]
        · intro e he
          exact absurd he (by simp)
        · intro e t _ hberr
          exact absurd hberr (by simp)
        · intro e he
          exact absurd he (by simp)
      · refine ⟨?_, ?_, ?_, ?_, ?_⟩
        · constructor
          · intro hpass
            simp [jsonEqualGo, ha, hb, ht] at hpass
          · intro hex
            obtain ⟨t, h1, h2⟩ := hex
            simp only [Except.ok.injEq] at h1 h2
            exact absurd (h1.trans h2.symm) ht
        · constructor
          · intro hpass
            simp [stringJsonEqualGo, ha, hb, ht] at hpass
          · intro hex
            obtain ⟨t, h1, h2⟩ := hex
            simp only [Except.ok.injEq] at h1 h2
            exact absurd (h1.trans h2.symm) ht
        · intro e he
          exact absurd he (by simp)
        · intro e t _ hberr
          exact absurd hberr (by simp)
        · intro e he
          exact absurd he (by simp)

/-- C5 witness for `jsonEqual_pass_iff_trees_equal`: the spec's example
"not json" versus an empty object fails with the parse error text, and two
objects with permuted keys and different whitespace pass, both sides
decoding to the same canonical tree. -/
theorem jsonEqual_pass_iff_trees_equal_witness :
    jsonEqualGo "not json" "\x7b\x7d" = ["invalid character in literal null"] ∧
    jsonEqualGo "\x7b\"a\":1,\"b\":2\x7d" "\x7b \"b\" : 2, \"a\" : 1 \x7d" = [] :=
  ⟨(jsonEqual_pass_iff_trees_equal "not json" "\x7b\x7d").2.2.1
      "invalid character in literal null" (by decide),
   (jsonEqual_pass_iff_trees_equal "\x7b\"a\":1,\"b\":2\x7d"
      "\x7b \"b\" : 2, \"a\" : 1 \x7d").1.mpr
      ⟨Jval.jobj (.fcons "a" (.jnum 1 0) (.fcons "b" (.jnum 2 0) .fnil)),
       by decide, by decide⟩⟩

/-! ## Per-check reporter-call bounds (for the at-most-once invariant) -/

/-- The `matches` helper reports at most once per call. -/
theorem matchesGo_len (re : Option Bool) (g e : String) : (matchesGo re g e).length ≤ 1 := by
  cases re with
  | none => simp [matchesGo]
  | some b => cases b <;> simp [matchesGo]

/-- `StringAssertion.Matches` (string.go) reports at most once per call. -/
theorem stringMatchesGo_len (re : Option Bool) (v e : String) :
    (stringMatchesGo re v e).length ≤ 1 := by
  cases re with
  | none => simp [stringMatchesGo]
  | some b => cases b <;> simp [stringMatchesGo]

/-- `Panic` reports at most once per call. -/
theorem assertPanicGo_len (re : Option Bool) (fn : FnBehavior) (e : String) :
    (assertPanicGo re fn e).length ≤ 1 := by
  by_cases h : recoveryGo fn = "<<SUCCESS>>"
  · simp [assertPanicGo, h]
  · simpa [assertPanicGo, h] using matchesGo_len re (recoveryGo fn) e

/-- `Nil` and `NotNil` report at most once per call. -/
theorem assertNilGo_len (v : GoValue) :
    (assertNilGo v).length ≤ 1 ∧ (assertNotNilGo v).length ≤ 1 := by
  unfold assertNilGo assertNotNilGo
  constructor <;> split <;> simp

/-- `ErrorAssertion.Is` and `IsNot` report at most once per call that
returns normally. -/
theorem errorIsGo_len (h t : Option GoError) :
    (exceptCalls (errorIsGo h t)).length ≤ 1 ∧
    (exceptCalls (errorIsNotGo h t)).length ≤ 1 := by
  constructor
  · unfold errorIsGo
    split
    · simp [exceptCalls]
    · split <;> simp [exceptCalls]
  · unfold errorIsNotGo
    split
    · split <;> simp [exceptCalls]
    · simp [exceptCalls]

/-- `ThatAssertion.TypeOf` reports at most once per call that returns
normally. -/
theorem thatTypeOfGo_len (f : GoType → GoType → Bool) (v e : Option GoType) :
    (exceptCalls (thatTypeOfGo f v e)).length ≤ 1 := by
  cases e with
  | none => simp [thatTypeOfGo, exceptCalls]
  | some e2raw =>
    cases v with
    | none => simp [thatTypeOfGo, exceptCalls]
    | some e1 =>
      by_cases hf : f e1 (unwrapIfacePtr e2raw) = true
      · simp [thatTypeOfGo, hf, exceptCalls]
      · simp [thatTypeOfGo, hf, exceptCalls]

/-- `InDelta` reports at most once per call (both instantiations). -/
theorem inDeltaGo_len (w : Nat) (ty : String) (a e d : Nat) (a2 e2 d2 : Int) :
    (uintInDeltaGo w ty a e d).length ≤ 1 ∧ (intInDeltaGo ty a2 e2 d2).length ≤ 1 := by
  constructor
  · by_cases hc : d < goUintSub w a e
    · simp [uintInDeltaGo, hc]
    · simp [uintInDeltaGo, hc]
  · simp only [intInDeltaGo]
    split <;> (split <;> simp)

/-- `JsonEqual` reports at most once per call (both revisions). -/
theorem jsonEqualGo_len (a b : String) :
    (jsonEqualGo a b).length ≤ 1 ∧ (stringJsonEqualGo a b).length ≤ 1 := by
  cases ha : parseJson a with
  | error ea => simp [jsonEqualGo, stringJsonEqualGo, ha]
  | ok ta =>
    cases hb : parseJson b with
    | error eb => simp [jsonEqualGo, stringJsonEqualGo, ha, hb]
    | ok tb =>
      by_cases ht : ta = tb
      · simp [jsonEqualGo, stringJsonEqualGo, ha, hb, ht]
      · simp [jsonEqualGo, stringJsonEqualGo, ha, hb, ht]

/-- The slice checks report at most once per call. -/
theorem sliceChecksGo_len (α : Type) [LinearOrder α] [ToString α] (v : List α)
    (x : α) (p : List α) :
    (sliceIsSortedGo v).length ≤ 1 ∧ (sliceIsSortedDescGo v).length ≤ 1 ∧
    (sliceIsNonDecreasingGo v).length ≤ 1 ∧ (sliceIsNonIncreasingGo v).length ≤ 1 ∧
    (sliceIsIncreasingGo v).length ≤ 1 ∧ (sliceIsDecreasingGo v).length ≤ 1 ∧
    (sliceContainsGo v x).length ≤ 1 ∧ (sliceNotContainsGo v x).length ≤ 1 ∧
    (sliceHasPrefixGo v p).length ≤ 1 := by
  refine ⟨?_, ?_, ?_, ?_, ?_, ?_, ?_, ?_, ?_⟩
  · cases v with
    | nil => simp [sliceIsSortedGo]
    | cons y ys =>
      simp only [sliceIsSortedGo]
      exact adjScan_length_le _ _ ys 1 y
  · cases v with
    | nil => simp [sliceIsSortedDescGo]
    | cons y ys =>
      simp only [sliceIsSortedDescGo]
      exact adjScan_length_le _ _ ys 1 y
  · cases v with
    | nil => simp [sliceIsNonDecreasingGo]
    | cons y ys =>
      simp only [sliceIsNonDecreasingGo]
      exact adjScan_length_le _ _ ys 1 y
  · cases v with
    | nil => simp [sliceIsNonIncreasingGo]
    | cons y ys =>
      simp only [sliceIsNonIncreasingGo]
      exact adjScan_length_le _ _ ys 1 y
  · cases v with
    | nil => simp [sliceIsIncreasingGo]
    | cons y ys =>
      simp only [sliceIsIncreasingGo]
      exact adjScan_length_le _ _ ys 1 y
  · cases v with
    | nil => simp [sliceIsDecreasingGo]
    | cons y ys =>
      simp only [sliceIsDecreasingGo]
      exact adjScan_length_le _ _ ys 1 y
  · by_cases hx : (v.any fun y => decide (y = x)) = true
    · simp [sliceContainsGo, hx]
    · simp [sliceContainsGo, hx]
  · by_cases hx : (v.any fun y => decide (y = x)) = true
    · simp [sliceNotContainsGo, hx]
    · simp [sliceNotContainsGo, hx]
  · by_cases hl : v.length < p.length
    · simp [sliceHasPrefixGo, hl]
    · unfold sliceHasPrefixGo
      rw [if_neg hl]
      exact hasPrefLoop_length_le p v 0


/-- A fail-and-return loop reports at most one message. -/
theorem firstMsg_length_le {α : Type} (f : α → Option String) :
    ∀ l : List α, (firstMsg f l).length ≤ 1 := by
  intro l
  induction l with
  | nil => simp [firstMsg]
  | cons x xs ih =>
    simp only [firstMsg]
    cases hfx : f x
    · simpa using ih
    · simp

/-- `True` and `False` report at most once per call. -/
theorem boolChecksGo_len (got : Bool) :
    (assertTrueGo got).length ≤ 1 ∧ (assertFalseGo got).length ≤ 1 := by
  cases got <;> simp [assertTrueGo, assertFalseGo]

/-- The free `Error` check reports at most once per call. -/
theorem errorFreeGo_len (re : Option Bool) (got : Option GoError) (expr : String) :
    (errorFreeGo re got expr).length ≤ 1 := by
  cases got with
  | none => simp [errorFreeGo]
  | some e => simpa [errorFreeGo] using matchesGo_len re (errText e) expr

/-- The equality-flavoured `That` checks report at most once per call. -/
theorem thatEqChecksGo_len (deq same : Bool) (v e : GoValue) :
    (thatEqualGo deq v e).length ≤ 1 ∧ (thatNotEqualGo deq v e).length ≤ 1 ∧
    (thatSameGo same v e).length ≤ 1 ∧ (thatNotSameGo same e).length ≤ 1 := by
  cases deq <;> cases same <;>
    simp [thatEqualGo, thatNotEqualGo, thatSameGo, thatNotSameGo]

/-- The core of `Implements` reports at most once per normal return. -/
theorem thatImplementsCore_len (impl : GoType → GoType → Bool)
    (v : Option GoType) (e2 : GoType) :
    (exceptCalls (thatImplementsCore impl v e2)).length ≤ 1 := by
  cases v with
  | none => simp [thatImplementsCore, exceptCalls]
  | some e1 =>
    cases e2 with
    | tyIface n =>
      by_cases hi : impl e1 (.tyIface n) = true <;>
        simp [thatImplementsCore, hi, exceptCalls]
    | tyInt => simp [thatImplementsCore, exceptCalls]
    | tyString => simp [thatImplementsCore, exceptCalls]
    | tyPtr t => simp [thatImplementsCore, exceptCalls]

/-- `Implements` reports at most once per normal return. -/
theorem thatImplementsGo_len (impl : GoType → GoType → Bool) (v e : Option GoType) :
    (exceptCalls (thatImplementsGo impl v e)).length ≤ 1 := by
  cases e with
  | none => simp [thatImplementsGo, exceptCalls]
  | some e2raw =>
    cases e2raw with
    | tyPtr inner =>
      cases inner with
      | tyIface n =>
        simpa [thatImplementsGo] using thatImplementsCore_len impl v (.tyIface n)
      | tyInt => simp [thatImplementsGo, exceptCalls]
      | tyString => simp [thatImplementsGo, exceptCalls]
      | tyPtr t => simp [thatImplementsGo, exceptCalls]
    | tyIface n =>
      simpa [thatImplementsGo] using thatImplementsCore_len impl v (.tyIface n)
    | tyInt => simpa [thatImplementsGo] using thatImplementsCore_len impl v .tyInt
    | tyString => simpa [thatImplementsGo] using thatImplementsCore_len impl v .tyString

/-- `Has` and `Contains` report at most once per call. -/
theorem thatHasContainsGo_len (m : MethodLookup) (v e : GoValue) :
    (thatHasGo m v e).length ≤ 1 ∧ (thatContainsGo m v e).length ≤ 1 := by
  cases m with
  | absent => simp [thatHasGo, thatContainsGo]
  | wrongSig => simp [thatHasGo, thatContainsGo]
  | returns b => cases b <;> simp [thatHasGo, thatContainsGo]

/-- The sequence- and mapping-membership `That` checks report at most once
per call. -/
theorem thatMembershipGo_len (v : GoValue) (g x : GoArg) :
    (thatInSliceGo v g).length ≤ 1 ∧ (thatNotInSliceGo v g).length ≤ 1 ∧
    (thatSubInSliceGo g x).length ≤ 1 ∧
    (thatInMapKeysGo v g).length ≤ 1 ∧ (thatInMapValuesGo v g).length ≤ 1 := by
  refine ⟨?_, ?_, ?_, ?_, ?_⟩
  · cases g with
    | seq tag xs => simp only [thatInSliceGo]; split <;> simp
    | mapping kvs => simp [thatInSliceGo]
    | other w => simp [thatInSliceGo]
  · cases g with
    | seq tag xs =>
      simp only [thatNotInSliceGo]
      split
      · simp
      · split <;> simp
    | mapping kvs => simp [thatNotInSliceGo]
    | other w => simp [thatNotInSliceGo]
  · cases g with
    | seq gt xs =>
      cases x with
      | seq et ys => simp only [thatSubInSliceGo]; split <;> simp
      | mapping kvs => simp [thatSubInSliceGo]
      | other w => simp [thatSubInSliceGo]
    | mapping kvs => simp [thatSubInSliceGo]
    | other w => simp [thatSubInSliceGo]
  · cases g with
    | seq tag xs => simp [thatInMapKeysGo]
    | mapping kvs => simp only [thatInMapKeysGo]; split <;> simp
    | other w => simp [thatInMapKeysGo]
  · cases g with
    | seq tag xs => simp [thatInMapValuesGo]
    | mapping kvs => simp only [thatInMapValuesGo]; split <;> simp
    | other w => simp [thatInMapValuesGo]

/-- The numeric comparison and range checks report at most once per call. -/
theorem numChecksGo_len (ty vshow : String) (v expect lower upper sign : Int)
    (nan inf : Bool) :
    (numEqualGo ty v expect).length ≤ 1 ∧ (numNotEqualGo ty v expect).length ≤ 1 ∧
    (numGreaterThanGo ty v expect).length ≤ 1 ∧
    (numGreaterOrEqualGo ty v expect).length ≤ 1 ∧
    (numLessThanGo ty v expect).length ≤ 1 ∧ (numLessOrEqualGo ty v expect).length ≤ 1 ∧
    (numIsZeroGo ty v).length ≤ 1 ∧ (numNotZeroGo ty v).length ≤ 1 ∧
    (numIsPositiveGo ty v).length ≤ 1 ∧ (numIsNegativeGo ty v).length ≤ 1 ∧
    (numIsNonNegativeGo ty v).length ≤ 1 ∧ (numIsNonPositiveGo ty v).length ≤ 1 ∧
    (numBetweenGo ty v lower upper).length ≤ 1 ∧
    (numNotBetweenGo ty v lower upper).length ≤ 1 ∧
    (numIsNaNGo ty vshow nan).length ≤ 1 ∧ (numIsInfGo ty vshow inf sign).length ≤ 1 ∧
    (numIsFiniteGo ty vshow nan inf).length ≤ 1 := by
  refine ⟨?_, ?_, ?_, ?_, ?_, ?_, ?_, ?_, ?_, ?_, ?_, ?_, ?_, ?_, ?_, ?_, ?_⟩ <;>
    (simp only [numEqualGo, numNotEqualGo, numGreaterThanGo, numGreaterOrEqualGo,
       numLessThanGo, numLessOrEqualGo, numIsZeroGo, numNotZeroGo, numIsPositiveGo,
       numIsNegativeGo, numIsNonNegativeGo, numIsNonPositiveGo, numBetweenGo,
       numNotBetweenGo, numIsNaNGo, numIsInfGo, numIsFiniteGo]
     split <;> simp)

/-- The remaining string checks report at most once per call. -/
theorem strChecksGo_len (re : Option Bool) (v expect : String) (length : Nat) :
    (strLengthGo v length).length ≤ 1 ∧ (strEqualGo v expect).length ≤ 1 ∧
    (strNotEqualGo v expect).length ≤ 1 ∧ (strEqualFoldGo v expect).length ≤ 1 ∧
    (strHasPrefixGo v expect).length ≤ 1 ∧ (strHasSuffixGo v expect).length ≤ 1 ∧
    (strContainsGo v expect).length ≤ 1 ∧
    (strIsEmptyGo v).length ≤ 1 ∧ (strIsNotEmptyGo v).length ≤ 1 ∧
    (strIsBlankGo v).length ≤ 1 ∧ (strIsNotBlankGo v).length ≤ 1 ∧
    (strIsLowerCaseGo v).length ≤ 1 ∧ (strIsUpperCaseGo v).length ≤ 1 ∧
    (strIsNumericGo v).length ≤ 1 ∧ (strIsAlphaGo v).length ≤ 1 ∧
    (strIsAlphaNumericGo v).length ≤ 1 ∧
    (strIsEmailGo re v).length ≤ 1 ∧ (strIsURLGo re v).length ≤ 1 ∧
    (strIsIPGo re v).length ≤ 1 ∧ (strIsHexGo re v).length ≤ 1 ∧
    (strIsBase64Go re v).length ≤ 1 := by
  refine ⟨?_, ?_, ?_, ?_, ?_, ?_, ?_, ?_, ?_, ?_, ?_, ?_, ?_, ?_, ?_, ?_, ?_, ?_, ?_,
    ?_, ?_⟩ <;>
    (simp only [strLengthGo, strEqualGo, strNotEqualGo, strEqualFoldGo, strHasPrefixGo,
       strHasSuffixGo, strContainsGo, strIsEmptyGo, strIsNotEmptyGo, strIsBlankGo,
       strIsNotBlankGo, strIsLowerCaseGo, strIsUpperCaseGo, strIsNumericGo, strIsAlphaGo,
       strIsAlphaNumericGo, strIsEmailGo, strIsURLGo, strIsIPGo, strIsHexGo,
       strIsBase64Go]
     split <;> simp)

/-- The suffix-comparison loop reports at most one message. -/
theorem hasSufLoop_length_le {α : Type} [DecidableEq α] [ToString α] :
    ∀ (s v : List α) (i : Nat), (hasSufLoop i v s).length ≤ 1 := by
  intro s
  induction s with
  | nil => intro v i; cases v <;> simp [hasSufLoop]
  | cons p ps ih =>
    intro v i
    cases v with
    | nil => simp [hasSufLoop]
    | cons x xs =>
      by_cases h : x = p
      · simp [hasSufLoop, h, ih]
      · simp [hasSufLoop, h]

/-- The slice-equality loop reports at most one message. -/
theorem sliceEqLoop_length_le {α : Type} [DecidableEq α] [ToString α] :
    ∀ (e v : List α) (i : Nat), (sliceEqLoop i v e).length ≤ 1 := by
  intro e
  induction e with
  | nil => intro v i; cases v <;> simp [sliceEqLoop]
  | cons p ps ih =>
    intro v i
    cases v with
    | nil => simp [sliceEqLoop]
    | cons x xs =>
      by_cases h : x = p
      · simp [sliceEqLoop, h, ih]
      · simp [sliceEqLoop, h]

/-- The seen-set loop of `IsUnique` reports at most one message. -/
theorem isUniqueLoop_length_le {α : Type} [DecidableEq α] [ToString α] :
    ∀ (v seen : List α), (isUniqueLoop seen v).length ≤ 1 := by
  intro v
  induction v with
  | nil => intro seen; simp [isUniqueLoop]
  | cons x xs ih =>
    intro seen
    by_cases h : (seen.any fun y => decide (y = x)) = true
    · simp [isUniqueLoop, h]
    · simp [isUniqueLoop, h, ih]

/-- The seen-set loop of `IsUniqueBy` reports at most one message. -/
theorem isUniqueByLoop_length_le {α β : Type} [DecidableEq β] [ToString α]
    (fn : α → β) :
    ∀ (v : List α) (seen : List β), (isUniqueByLoop fn seen v).length ≤ 1 := by
  intro v
  induction v with
  | nil => intro seen; simp [isUniqueByLoop]
  | cons x xs ih =>
    intro seen
    by_cases h : (seen.any fun k => decide (k = fn x)) = true
    · simp [isUniqueByLoop, h]
    · simp [isUniqueByLoop, h, ih]

/-- The remaining slice checks report at most once per call. -/
theorem sliceChecksGo2_len (α : Type) [LinearOrder α] [ToString α] {β : Type}
    [DecidableEq β] (v sub expect : List α) (length : Nat) (isnil : Bool)
    (keyFn : α → β) (fn : α → Bool) :
    (sliceLenGo v length).length ≤ 1 ∧
    (sliceIsEmptyGo v).length ≤ 1 ∧ (sliceIsNotEmptyGo v).length ≤ 1 ∧
    (sliceIsNilGo isnil v).length ≤ 1 ∧ (sliceIsNotNilGo isnil v).length ≤ 1 ∧
    (sliceZeroGo isnil v).length ≤ 1 ∧ (sliceNotZeroGo isnil v).length ≤ 1 ∧
    (sliceSubSliceGo v sub).length ≤ 1 ∧ (sliceNotSubSliceGo v sub).length ≤ 1 ∧
    (sliceHasSuffixGo v sub).length ≤ 1 ∧
    (sliceEqualGo v expect).length ≤ 1 ∧ (sliceNotEqualGo v expect).length ≤ 1 ∧
    (sliceIsUniqueGo v).length ≤ 1 ∧ (sliceIsUniqueByGo keyFn v).length ≤ 1 ∧
    (sliceAllGo fn v).length ≤ 1 ∧ (sliceAnyGo fn v).length ≤ 1 ∧
    (sliceNoneGo fn v).length ≤ 1 := by
  refine ⟨?_, ?_, ?_, ?_, ?_, ?_, ?_, ?_, ?_, ?_, ?_, ?_, ?_, ?_, ?_, ?_, ?_⟩
  · simp only [sliceLenGo]; split <;> simp
  · simp only [sliceIsEmptyGo]; split <;> simp
  · simp only [sliceIsNotEmptyGo]; split <;> simp
  · simp only [sliceIsNilGo]; split <;> simp
  · simp only [sliceIsNotNilGo]; split <;> simp
  · simp only [sliceZeroGo]; split <;> simp
  · simp only [sliceNotZeroGo]; split <;> simp
  · simp only [sliceSubSliceGo]
    split
    · simp
    · split <;> simp
  · simp only [sliceNotSubSliceGo]
    split
    · simp
    · split <;> simp
  · simp only [sliceHasSuffixGo]
    split
    · simp
    · exact hasSufLoop_length_le sub _ _
  · simp only [sliceEqualGo]
    split
    · simp
    · exact sliceEqLoop_length_le expect v 0
  · simp only [sliceNotEqualGo]; split <;> simp
  · exact isUniqueLoop_length_le v []
  · exact isUniqueByLoop_length_le keyFn v []
  · exact firstMsg_length_le _ v
  · simp only [sliceAnyGo]; split <;> simp
  · exact firstMsg_length_le _ v

/-- The map checks report at most once per call. -/
theorem mapChecksGo_len (K V : Type) [DecidableEq K] [DecidableEq V]
    [ToString K] [ToString V] (m expect : List (K × V)) (length : Nat)
    (key : K) (value zeroV : V) (keys : List K) (values : List V) :
    (mapLenGo m length).length ≤ 1 ∧
    (mapEmptyGo m).length ≤ 1 ∧ (mapNotEmptyGo m).length ≤ 1 ∧
    (mapEqualGo zeroV m expect).length ≤ 1 ∧ (mapNotEqualGo m expect).length ≤ 1 ∧
    (mapContainsGo m key).length ≤ 1 ∧ (mapNotContainsGo m key).length ≤ 1 ∧
    (mapContainsValueGo m value).length ≤ 1 ∧
    (mapNotContainsValueGo m value).length ≤ 1 ∧
    (mapHasKeyValueGo m key value).length ≤ 1 ∧
    (mapContainsKeysGo m keys).length ≤ 1 ∧ (mapNotContainsKeysGo m keys).length ≤ 1 ∧
    (mapContainsValuesGo m values).length ≤ 1 ∧
    (mapNotContainsValuesGo m values).length ≤ 1 ∧
    (mapIsSubsetOfGo m expect).length ≤ 1 ∧ (mapIsSupersetOfGo m expect).length ≤ 1 ∧
    (mapHasSameKeysGo m expect).length ≤ 1 ∧ (mapHasSameValuesGo m expect).length ≤ 1 := by
  refine ⟨?_, ?_, ?_, ?_, ?_, ?_, ?_, ?_, ?_, ?_, ?_, ?_, ?_, ?_, ?_, ?_, ?_, ?_⟩
  · simp only [mapLenGo]; split <;> simp
  · simp only [mapEmptyGo]; split <;> simp
  · simp only [mapNotEmptyGo]; split <;> simp
  · simp only [mapEqualGo]
    split
    · simp
    · exact firstMsg_length_le _ m
  · simp only [mapNotEqualGo]; split <;> simp
  · simp only [mapContainsGo]; split <;> simp
  · simp only [mapNotContainsGo]; split <;> simp
  · simp only [mapContainsValueGo]; split <;> simp
  · simp only [mapNotContainsValueGo]; split <;> simp
  · simp only [mapHasKeyValueGo]; split <;> simp
  · exact firstMsg_length_le _ keys
  · exact firstMsg_length_le _ keys
  · exact firstMsg_length_le _ values
  · exact firstMsg_length_le _ values
  · exact firstMsg_length_le _ m
  · exact firstMsg_length_le _ expect
  · simp only [mapHasSameKeysGo]
    split
    · simp
    · exact firstMsg_length_le _ m
  · simp only [mapHasSameValuesGo]
    split
    · simp
    · exact firstMsg_length_le _ _

/-- The remaining error checks report at most once per call. -/
theorem errorChecksGo_len (re : Option Bool) (held : Option GoError)
    (asResult : Bool) (targetTy substring expr : String) :
    (errorIsNilGo held).length ≤ 1 ∧ (errorIsNotNilGo held).length ≤ 1 ∧
    (errorAsGo asResult targetTy).length ≤ 1 ∧
    (errorContainsMessageGo held substring).length ≤ 1 ∧
    (errorMatchesGo re held expr).length ≤ 1 := by
  refine ⟨?_, ?_, ?_, ?_, ?_⟩
  · cases held <;> simp [errorIsNilGo]
  · cases held <;> simp [errorIsNotNilGo]
  · simp only [errorAsGo]; split <;> simp
  · cases held with
    | none => simp [errorContainsMessageGo]
    | some h => simp only [errorContainsMessageGo]; split <;> simp
  · cases held with
    | none => simp [errorMatchesGo]
    | some h => simpa [errorMatchesGo] using matchesGo_len re (errText h) expr

/-- C6: every check of every assertion group - boolean, nil-ness, panic
capture, generic `That`, numeric, string (both revisions), JSON equality
(both revisions), slice, map and error - on every input, invokes the
reporter at most once per call that returns normally; a check passes
exactly when it invokes the reporter zero times (the pass verdict is the
empty call list by construction), so a failing call invokes it exactly
once. -/
theorem checks_report_at_most_once :
    (∀ got : Bool, (assertTrueGo got).length ≤ 1 ∧ (assertFalseGo got).length ≤ 1) ∧
    (∀ v : GoValue, (assertNilGo v).length ≤ 1 ∧ (assertNotNilGo v).length ≤ 1) ∧
    (∀ (re : Option Bool) (fn : FnBehavior) (e : String),
      (assertPanicGo re fn e).length ≤ 1) ∧
    (∀ (deq same : Bool) (v e : GoValue),
      (thatEqualGo deq v e).length ≤ 1 ∧ (thatNotEqualGo deq v e).length ≤ 1 ∧
      (thatSameGo same v e).length ≤ 1 ∧ (thatNotSameGo same e).length ≤ 1) ∧
    (∀ (f : GoType → GoType → Bool) (v e : Option GoType),
      (exceptCalls (thatTypeOfGo f v e)).length ≤ 1 ∧
      (exceptCalls (thatImplementsGo f v e)).length ≤ 1) ∧
    (∀ (m : MethodLookup) (v e : GoValue),
      (thatHasGo m v e).length ≤ 1 ∧ (thatContainsGo m v e).length ≤ 1) ∧
    (∀ (v : GoValue) (g x : GoArg),
      (thatInSliceGo v g).length ≤ 1 ∧ (thatNotInSliceGo v g).length ≤ 1 ∧
      (thatSubInSliceGo g x).length ≤ 1 ∧
      (thatInMapKeysGo v g).length ≤ 1 ∧ (thatInMapValuesGo v g).length ≤ 1) ∧
    (∀ (ty vshow : String) (v expect lower upper sign : Int) (nan inf : Bool),
      (numEqualGo ty v expect).length ≤ 1 ∧ (numNotEqualGo ty v expect).length ≤ 1 ∧
      (numGreaterThanGo ty v expect).length ≤ 1 ∧
      (numGreaterOrEqualGo ty v expect).length ≤ 1 ∧
      (numLessThanGo ty v expect).length ≤ 1 ∧ (numLessOrEqualGo ty v expect).length ≤ 1 ∧
      (numIsZeroGo ty v).length ≤ 1 ∧ (numNotZeroGo ty v).length ≤ 1 ∧
      (numIsPositiveGo ty v).length ≤ 1 ∧ (numIsNegativeGo ty v).length ≤ 1 ∧
      (numIsNonNegativeGo ty v).length ≤ 1 ∧ (numIsNonPositiveGo ty v).length ≤ 1 ∧
      (numBetweenGo ty v lower upper).length ≤ 1 ∧
      (numNotBetweenGo ty v lower upper).length ≤ 1 ∧
      (numIsNaNGo ty vshow nan).length ≤ 1 ∧ (numIsInfGo ty vshow inf sign).length ≤ 1 ∧
      (numIsFiniteGo ty vshow nan inf).length ≤ 1) ∧
    (∀ (w : Nat) (ty : String) (a e d : Nat), (uintInDeltaGo w ty a e d).length ≤ 1) ∧
    (∀ (ty : String) (a e d : Int), (intInDeltaGo ty a e d).length ≤ 1) ∧
    (∀ (re : Option Bool) (v e : String),
      (matchesGo re v e).length ≤ 1 ∧ (stringMatchesGo re v e).length ≤ 1) ∧
    (∀ (re : Option Bool) (v expect : String) (length : Nat),
      (strLengthGo v length).length ≤ 1 ∧ (strEqualGo v expect).length ≤ 1 ∧
      (strNotEqualGo v expect).length ≤ 1 ∧ (strEqualFoldGo v expect).length ≤ 1 ∧
      (strHasPrefixGo v expect).length ≤ 1 ∧ (strHasSuffixGo v expect).length ≤ 1 ∧
      (strContainsGo v expect).length ≤ 1 ∧
      (strIsEmptyGo v).length ≤ 1 ∧ (strIsNotEmptyGo v).length ≤ 1 ∧
      (strIsBlankGo v).length ≤ 1 ∧ (strIsNotBlankGo v).length ≤ 1 ∧
      (strIsLowerCaseGo v).length ≤ 1 ∧ (strIsUpperCaseGo v).length ≤ 1 ∧
      (strIsNumericGo v).length ≤ 1 ∧ (strIsAlphaGo v).length ≤ 1 ∧
      (strIsAlphaNumericGo v).length ≤ 1 ∧
      (strIsEmailGo re v).length ≤ 1 ∧ (strIsURLGo re v).length ≤ 1 ∧
      (strIsIPGo re v).length ≤ 1 ∧ (strIsHexGo re v).length ≤ 1 ∧
      (strIsBase64Go re v).length ≤ 1) ∧
    (∀ a b : String,
      (jsonEqualGo a b).length ≤ 1 ∧ (stringJsonEqualGo a b).length ≤ 1) ∧
    (∀ (α : Type) [LinearOrder α] [ToString α] (v : List α) (x : α) (p : List α),
      (sliceIsSortedGo v).length ≤ 1 ∧ (sliceIsSortedDescGo v).length ≤ 1 ∧
      (sliceIsNonDecreasingGo v).length ≤ 1 ∧ (sliceIsNonIncreasingGo v).length ≤ 1 ∧
      (sliceIsIncreasingGo v).length ≤ 1 ∧ (sliceIsDecreasingGo v).length ≤ 1 ∧
      (sliceContainsGo v x).length ≤ 1 ∧ (sliceNotContainsGo v x).length ≤ 1 ∧
      (sliceHasPrefixGo v p).length ≤ 1) ∧
    (∀ (α : Type) [LinearOrder α] [ToString α] (β : Type) [DecidableEq β]
      (v sub expect : List α) (length : Nat) (isnil : Bool) (keyFn : α → β)
      (fn : α → Bool),
      (sliceLenGo v length).length ≤ 1 ∧
      (sliceIsEmptyGo v).length ≤ 1 ∧ (sliceIsNotEmptyGo v).length ≤ 1 ∧
      (sliceIsNilGo isnil v).length ≤ 1 ∧ (sliceIsNotNilGo isnil v).length ≤ 1 ∧
      (sliceZeroGo isnil v).length ≤ 1 ∧ (sliceNotZeroGo isnil v).length ≤ 1 ∧
      (sliceSubSliceGo v sub).length ≤ 1 ∧ (sliceNotSubSliceGo v sub).length ≤ 1 ∧
      (sliceHasSuffixGo v sub).length ≤ 1 ∧
      (sliceEqualGo v expect).length ≤ 1 ∧ (sliceNotEqualGo v expect).length ≤ 1 ∧
      (sliceIsUniqueGo v).length ≤ 1 ∧ (sliceIsUniqueByGo keyFn v).length ≤ 1 ∧
      (sliceAllGo fn v).length ≤ 1 ∧ (sliceAnyGo fn v).length ≤ 1 ∧
      (sliceNoneGo fn v).length ≤ 1) ∧
    (∀ (K V : Type) [DecidableEq K] [DecidableEq V] [ToString K] [ToString V]
      (m expect : List (K × V)) (length : Nat) (key : K) (value zeroV : V)
      (keys : List K) (values : List V),
      (mapLenGo m length).length ≤ 1 ∧
      (mapEmptyGo m).length ≤ 1 ∧ (mapNotEmptyGo m).length ≤ 1 ∧
      (mapEqualGo zeroV m expect).length ≤ 1 ∧ (mapNotEqualGo m expect).length ≤ 1 ∧
      (mapContainsGo m key).length ≤ 1 ∧ (mapNotContainsGo m key).length ≤ 1 ∧
      (mapContainsValueGo m value).length ≤ 1 ∧
      (mapNotContainsValueGo m value).length ≤ 1 ∧
      (mapHasKeyValueGo m key value).length ≤ 1 ∧
      (mapContainsKeysGo m keys).length ≤ 1 ∧ (mapNotContainsKeysGo m keys).length ≤ 1 ∧
      (mapContainsValuesGo m values).length ≤ 1 ∧
      (mapNotContainsValuesGo m values).length ≤ 1 ∧
      (mapIsSubsetOfGo m expect).length ≤ 1 ∧ (mapIsSupersetOfGo m expect).length ≤ 1 ∧
      (mapHasSameKeysGo m expect).length ≤ 1 ∧
      (mapHasSameValuesGo m expect).length ≤ 1) ∧
    (∀ h t : Option GoError,
      (exceptCalls (errorIsGo h t)).length ≤ 1 ∧
      (exceptCalls (errorIsNotGo h t)).length ≤ 1) ∧
    (∀ (re : Option Bool) (held : Option GoError) (asResult : Bool)
      (targetTy substring expr : String),
      (errorIsNilGo held).length ≤ 1 ∧ (errorIsNotNilGo held).length ≤ 1 ∧
      (errorAsGo asResult targetTy).length ≤ 1 ∧
      (errorContainsMessageGo held substring).length ≤ 1 ∧
      (errorMatchesGo re held expr).length ≤ 1) ∧
    (∀ (re : Option Bool) (got : Option GoError) (expr : String),
      (errorFreeGo re got expr).length ≤ 1) := by
  refine ⟨boolChecksGo_len, assertNilGo_len, assertPanicGo_len, thatEqChecksGo_len,
    ?_, thatHasContainsGo_len, thatMembershipGo_len, numChecksGo_len, ?_, ?_, ?_,
    strChecksGo_len, jsonEqualGo_len, ?_, ?_, ?_, errorIsGo_len, errorChecksGo_len,
    errorFreeGo_len⟩
  · intro f v e
    exact ⟨thatTypeOfGo_len f v e, thatImplementsGo_len f v e⟩
  · intro w ty a e d
    exact (inDeltaGo_len w ty a e d 0 0 0).1
  · intro ty a e d
    exact (inDeltaGo_len 0 ty 0 0 0 a e d).2
  · intro re v e
    exact ⟨matchesGo_len re v e, stringMatchesGo_len re v e⟩
  · intro α instO instT v x p
    exact sliceChecksGo_len α v x p
  · intro α instO instT β instB v sub expect length isnil keyFn fn
    exact sliceChecksGo2_len α v sub expect length isnil keyFn fn
  · intro K V instK instV instTK instTV m expect length key value zeroV keys values
    exact mapChecksGo_len K V m expect length key value zeroV keys values
